import Mathlib

/-!
Verification development for the QUASAR terminal-dashboard core
(`src/cli/src` of the repository): the markdown/LaTeX formatting pipeline
(`utils/formatting.ts`), the segment-aware line wrapper
(`utils/textProcessing`), the committed-item transcript log and its header
de-duplication (`commands/Run.tsx`), checkpoint reconstruction
(`handlers/checkpointHandler.ts`), the message dispatcher
(`handlers/messageHandlers.ts`) and the interrupt gesture state machine.

Strings are modelled as `List Char`.  The JavaScript regular expressions of
the source are translated into explicit character-level scanners with the
same matching semantics: leftmost match, global scans resuming at the end of
the previous match (advancing one position after a failed attempt), greedy
quantifiers.  Scanners that consume a non-constant amount of input use a
fuel parameter initialised with the input length; every step consumes at
least one character, so the fuel never runs out on the initial call.
-/

namespace Quasar

/-- The JavaScript `\s` whitespace class (all code points it contains). -/
def jsWs (c : Char) : Bool :=
  c = ' ' || c = '\t' || c = '\n' || c = '\r' ||
  c.toNat = 11 || c.toNat = 12 || c.toNat = 0xa0 || c.toNat = 0x1680 ||
  (0x2000 ≤ c.toNat && c.toNat ≤ 0x200a) || c.toNat = 0x2028 ||
  c.toNat = 0x2029 || c.toNat = 0x202f || c.toNat = 0x205f ||
  c.toNat = 0x3000 || c.toNat = 0xfeff

/-- JavaScript `String.prototype.trim` (strips `\s` from both ends). -/
def trimJs (l : List Char) : List Char :=
  ((l.dropWhile jsWs).reverse.dropWhile jsWs).reverse

/-- Boolean list-prefix test. -/
def isPfx : List Char → List Char → Bool
  | [], _ => true
  | _ :: _, [] => false
  | a :: as, b :: bs => a = b && isPfx as bs

/-- Boolean list-suffix test. -/
def isSfx (pat l : List Char) : Bool := isPfx pat.reverse l.reverse

/-- Substring test (JavaScript `String.prototype.includes`). -/
def containsL (needle : List Char) : List Char → Bool
  | [] => isPfx needle []
  | c :: rest => isPfx needle (c :: rest) || containsL needle rest

/-- Replace every (leftmost, non-overlapping) occurrence of the literal
`pat` by `rep` (JavaScript `replace` with a global literal regex). -/
def replAllGo (pat rep : List Char) : Nat → List Char → List Char
  | _, [] => []
  | 0, l => l
  | fuel + 1, c :: rest =>
    if pat ≠ [] && isPfx pat (c :: rest) then
      rep ++ replAllGo pat rep fuel (rest.drop (pat.length - 1))
    else
      c :: replAllGo pat rep fuel rest

def replAll (pat rep l : List Char) : List Char := replAllGo pat rep l.length l

/-- Replace the first occurrence of the literal `pat` by `rep`
(JavaScript `replace` with a string pattern). -/
def replFirst (pat rep : List Char) : List Char → List Char
  | [] => []
  | c :: rest =>
    if pat ≠ [] && isPfx pat (c :: rest) then
      rep ++ (rest.drop (pat.length - 1))
    else
      c :: replFirst pat rep rest

/-- Last character of a list, if any. -/
def lastChar? (l : List Char) : Option Char := l.getLast?

/- ===================== Text segmentation (formatting.ts) ================ -/

/-- The `TextSegment.style` union of `formatting.ts`. -/
inductive SegStyle
  | normal
  | code
  | bold
  | italic
  | task
deriving DecidableEq, Repr

/-- `TextSegment` of `formatting.ts`. -/
structure TextSegment where
  text : List Char
  style : SegStyle
deriving DecidableEq, Repr

/-- A style marker `{start, end, style}` as built inside
`parseStyledSegments` (`end` is called `stop` here: `end` is reserved). -/
structure Marker where
  start : Nat
  stop : Nat
  style : SegStyle
deriving DecidableEq, Repr

/-- Split a list at its first backtick: returns the run before it and the
rest after it, or `none` when there is no backtick. -/
def splitAtTick : List Char → Option (List Char × List Char)
  | [] => none
  | c :: rest =>
    if c = '\x60' then some ([], rest)
    else
      match splitAtTick rest with
      | none => none
      | some (run, rest') => some (c :: run, rest')

/-- Scanner for the global regex matching a backtick, one or more
non-backticks, and a closing backtick, as in `parseStyledSegments`:
returns the (start, end) index pairs of all matches. -/
def codeScanGo : Nat → Nat → List Char → List (Nat × Nat)
  | _, _, [] => []
  | 0, _, _ => []
  | fuel + 1, pos, c :: rest =>
    if c = '\x60' then
      match splitAtTick rest with
      | none => []
      | some (run, rest') =>
        if run = [] then codeScanGo fuel (pos + 1) rest
        else (pos, pos + run.length + 2) :: codeScanGo fuel (pos + run.length + 2) rest'
    else codeScanGo fuel (pos + 1) rest

def codeScan (l : List Char) : List (Nat × Nat) := codeScanGo l.length 0 l

/-- Maximal run of non-asterisk characters: returns the run and the rest
(which is empty or starts with an asterisk). -/
def starRun : List Char → (List Char × List Char)
  | [] => ([], [])
  | c :: rest =>
    if c = '*' then ([], c :: rest)
    else
      let (run, rest') := starRun rest
      (c :: run, rest')

/-- Scanner for the global paired-bold regex (two asterisks, one or more
non-asterisks, two asterisks) of `parseStyledSegments`. -/
def boldScanGo : Nat → Nat → List Char → List (Nat × Nat)
  | _, _, [] => []
  | 0, _, _ => []
  | fuel + 1, pos, c :: rest =>
    if c = '*' then
      match rest with
      | '*' :: tail =>
        match starRun tail with
        | ([], _) => boldScanGo fuel (pos + 1) rest
        | (run, rest') =>
          match rest' with
          | '*' :: '*' :: rest'' =>
            (pos, pos + run.length + 4) :: boldScanGo fuel (pos + run.length + 4) rest''
          | _ => boldScanGo fuel (pos + 1) rest
      | _ => boldScanGo fuel (pos + 1) rest
    else boldScanGo fuel (pos + 1) rest

def boldScan (l : List Char) : List (Nat × Nat) := boldScanGo l.length 0 l

/-- The unclosed-bold test: the line starts with two asterisks and the
remainder contains no further asterisk. -/
def unclosedBold : List Char → Bool
  | '*' :: '*' :: rest => rest.all (fun c => c ≠ '*')
  | _ => false

/-- The overlap test of `parseStyledSegments` for a bold candidate
`[s, e)` against the already-accepted markers. -/
def overlapsAccepted (markers : List Marker) (s e : Nat) : Bool :=
  markers.any (fun m =>
    (decide (s ≥ m.start) && decide (s < m.stop)) ||
    (decide (e > m.start) && decide (e ≤ m.stop)))

/-- Fold the bold candidates over the accepted-marker list, dropping the
overlapping ones, as the bold `while` loop of `parseStyledSegments` does. -/
def acceptBolds (init : List Marker) (cands : List (Nat × Nat)) : List Marker :=
  cands.foldl
    (fun ms c => if overlapsAccepted ms c.1 c.2 then ms else ms ++ [⟨c.1, c.2, .bold⟩])
    init

/-- Stable insertion (ascending by `start`) used to model the JavaScript
stable `markers.sort((a, b) => a.start - b.start)`. -/
def insertByStart (m : Marker) : List Marker → List Marker
  | [] => [m]
  | x :: xs => if m.start ≤ x.start then m :: x :: xs else x :: insertByStart m xs

def sortByStart (l : List Marker) : List Marker := l.foldr insertByStart []

/-- `fullMatch.replace(code regex, group)`: replace the first code span in
`l` by its backtick-free interior (identity when there is none). -/
def codeContent (l : List Char) : List Char :=
  match codeScan l with
  | [] => l
  | (s, e) :: _ => l.take s ++ ((l.take (e - 1)).drop (s + 1)) ++ l.drop e

/-- `fullMatch.replace(paired bold regex, group)`: replace the first paired
bold span in `l` by its interior (identity when there is none). -/
def boldPairedContent (l : List Char) : List Char :=
  match boldScan l with
  | [] => l
  | (s, e) :: _ => l.take s ++ ((l.take (e - 2)).drop (s + 2)) ++ l.drop e

/-- Content extraction for a bold marker, as in `parseStyledSegments`:
a full match ending in two asterisks goes through the paired-bold replace,
otherwise only a leading double asterisk is stripped. -/
def boldContent (fullMatch : List Char) : List Char :=
  if isSfx ['*', '*'] fullMatch then boldPairedContent fullMatch
  else
    match fullMatch with
    | '*' :: '*' :: rest => rest
    | _ => fullMatch

/-- The segment-building loop of `parseStyledSegments` (markers assumed
sorted; `lastIndex` is the cursor). -/
def buildSegs (line : List Char) : List Marker → Nat → List TextSegment
  | [], lastIndex =>
    if lastIndex < line.length then [⟨line.drop lastIndex, .normal⟩] else []
  | m :: ms, lastIndex =>
    let before :=
      if m.start > lastIndex then
        let normalText := (line.take m.start).drop lastIndex
        if normalText ≠ [] then [(⟨normalText, .normal⟩ : TextSegment)] else []
      else []
    let fullMatch := (line.take m.stop).drop m.start
    let content :=
      match m.style with
      | .code => codeContent fullMatch
      | .bold => boldContent fullMatch
      | _ => fullMatch
    before ++ ⟨content, m.style⟩ :: buildSegs line ms m.stop

/-- The code markers of a line (first scan of `parseStyledSegments`). -/
def codeMarkersOf (line : List Char) : List Marker :=
  (codeScan line).map (fun p => (⟨p.1, p.2, .code⟩ : Marker))

/-- The marker list after the bold scan of `parseStyledSegments` folded
its candidates over the code markers. -/
def boldAccepted (line : List Char) : List Marker :=
  acceptBolds (codeMarkersOf line) (boldScan line)

/-- The final marker list of `parseStyledSegments` (after the
unclosed-bold rule). -/
def lineMarkers (line : List Char) : List Marker :=
  let markers := boldAccepted line
  if unclosedBold line && !(markers.any (fun m => m.start = 0)) then
    markers ++ [⟨0, line.length, .bold⟩]
  else markers

/-- `parseStyledSegments` of `formatting.ts`. -/
def parseStyledSegments (line : List Char) : List TextSegment :=
  let segments := buildSegs line (sortByStart (lineMarkers line)) 0
  if segments.length > 0 then segments else [⟨line, .normal⟩]

/- ================= LaTeX transformations (formatting.ts) =============== -/

/-- `SUPERSCRIPT_MAP` of `formatting.ts`. -/
def supMap (c : Char) : Option Char :=
  match c with
  | '0' => some '⁰'
  | '1' => some '¹'
  | '2' => some '²'
  | '3' => some '³'
  | '4' => some '⁴'
  | '5' => some '⁵'
  | '6' => some '⁶'
  | '7' => some '⁷'
  | '8' => some '⁸'
  | '9' => some '⁹'
  | '-' => some '⁻'
  | _ => none

/-- `SUBSCRIPT_MAP` of `formatting.ts`. -/
def subMap (c : Char) : Option Char :=
  match c with
  | '0' => some '₀'
  | '1' => some '₁'
  | '2' => some '₂'
  | '3' => some '₃'
  | '4' => some '₄'
  | '5' => some '₅'
  | '6' => some '₆'
  | '7' => some '₇'
  | '8' => some '₈'
  | '9' => some '₉'
  | '-' => some '₋'
  | _ => none

/-- `SYMBOL_MAP` of `formatting.ts`, in its insertion order (the order the
replacement passes run in). -/
def symbolMap : List (String × String) :=
  [("\\times", "×"), ("\\approx", "≈"), ("\\le", "≤"), ("\\ge", "≥"),
   ("\\pm", "±"), ("\\rightarrow", "→"), ("\\leftarrow", "←"), ("\\to", "→"),
   ("\\sim", "∼"), ("\\AA", "Å"),
   ("\\alpha", "α"), ("\\beta", "β"), ("\\gamma", "γ"), ("\\delta", "δ"),
   ("\\theta", "θ"), ("\\mu", "μ"), ("\\pi", "π"), ("\\rho", "ρ"),
   ("\\sigma", "σ"), ("\\omega", "ω"), ("\\Gamma", "Γ"), ("\\Delta", "Δ"),
   ("\\Theta", "Θ"), ("\\Lambda", "Λ"), ("\\Sigma", "Σ"), ("\\Phi", "Φ"),
   ("\\Psi", "Ψ"), ("\\Omega", "Ω"), ("\\epsilon", "ε"), ("\\varepsilon", "ε"),
   ("\\lambda", "λ"), ("\\nu", "ν"), ("\\eta", "η"), ("\\tau", "τ"),
   ("\\phi", "ϕ"), ("\\psi", "ψ"), ("\\nabla", "∇"), ("\\partial", "∂"),
   ("\\cdot", "·"), ("\\hbar", "ħ"), ("\\infty", "∞"), ("\\Ohm", "Ω")]

/-- Split a list at its first closing brace: the brace-free run before it
and the rest after it (`none` when there is no closing brace). -/
def braceSplit : List Char → Option (List Char × List Char)
  | [] => none
  | c :: rest =>
    if c = '\x7d' then some ([], rest)
    else
      match braceSplit rest with
      | none => none
      | some (run, rest') => some (c :: run, rest')

/-- The text-macro unwrap pass: each occurrence of a backslash-text-brace
group is replaced by its interior, with one space prepended when the
character before the match (in the original string) is not whitespace. -/
def textUnwrapGo : Nat → Option Char → List Char → List Char
  | 0, _, l => l
  | _, _, [] => []
  | fuel + 1, prev, c :: rest =>
    if isPfx "\\text\x7b".data (c :: rest) then
      match braceSplit ((c :: rest).drop 6) with
      | some (content, rest') =>
        let pre : List Char :=
          match prev with
          | none => []
          | some p => if jsWs p then [] else [' ']
        pre ++ content ++ textUnwrapGo fuel (some '\x7d') rest'
      | none => c :: textUnwrapGo fuel (some c) rest
    else c :: textUnwrapGo fuel (some c) rest

def textUnwrap (l : List Char) : List Char := textUnwrapGo l.length none l

/-- The bar-macro pass: each backslash-bar-brace group is replaced by its
interior with a combining overline appended to every character. -/
def barUnwrapGo : Nat → List Char → List Char
  | 0, l => l
  | _, [] => []
  | fuel + 1, c :: rest =>
    if isPfx "\\bar\x7b".data (c :: rest) then
      match braceSplit ((c :: rest).drop 5) with
      | some (content, rest') =>
        (content.map (fun ch => [ch, '\u0304'])).flatten ++ barUnwrapGo fuel rest'
      | none => c :: barUnwrapGo fuel rest
    else c :: barUnwrapGo fuel rest

def barUnwrap (l : List Char) : List Char := barUnwrapGo l.length l

/-- Map an (optionally signed) digit string through a scripts map, keeping
characters the map does not know. -/
def mapScript (m : Char → Option Char) (num : List Char) : List Char :=
  num.map (fun d => (m d).getD d)

/-- Superscript/subscript pass for the braced form: a lead character
(caret or underscore), an opening brace, an optional minus sign, one or
more digits, and a closing brace. -/
def scriptBracedGo (lead : Char) (m : Char → Option Char) :
    Nat → List Char → List Char
  | 0, l => l
  | _, [] => []
  | fuel + 1, c :: rest =>
    if c = lead then
      match rest with
      | '\x7b' :: r0 =>
        let (sgn, r1) : List Char × List Char :=
          match r0 with
          | '-' :: r => (['-'], r)
          | _ => ([], r0)
        let ds := r1.takeWhile Char.isDigit
        let r2 := r1.drop ds.length
        if ds = [] then c :: scriptBracedGo lead m fuel rest
        else
          match r2 with
          | '\x7d' :: r3 => mapScript m (sgn ++ ds) ++ scriptBracedGo lead m fuel r3
          | _ => c :: scriptBracedGo lead m fuel rest
      | _ => c :: scriptBracedGo lead m fuel rest
    else c :: scriptBracedGo lead m fuel rest

/-- Superscript/subscript pass for the bare form: a lead character, an
optional minus sign and one or more digits. -/
def scriptBareGo (lead : Char) (m : Char → Option Char) :
    Nat → List Char → List Char
  | 0, l => l
  | _, [] => []
  | fuel + 1, c :: rest =>
    if c = lead then
      let (sgn, r1) : List Char × List Char :=
        match rest with
        | '-' :: r => (['-'], r)
        | _ => ([], rest)
      let ds := r1.takeWhile Char.isDigit
      let r2 := r1.drop ds.length
      if ds = [] then c :: scriptBareGo lead m fuel rest
      else mapScript m (sgn ++ ds) ++ scriptBareGo lead m fuel r2
    else c :: scriptBareGo lead m fuel rest

/-- The energy-cutoff pass matching a capital E, an underscore, an opening
brace, an optional backslash, the word text, a braced cut, and the closing
brace, rewritten to Ecut. -/
def eTextCutGo : Nat → List Char → List Char
  | 0, l => l
  | _, [] => []
  | fuel + 1, c :: rest =>
    if c = 'E' then
      match rest with
      | '_' :: '\x7b' :: r0 =>
        let r1 := if isPfx ['\\'] r0 then r0.drop 1 else r0
        if isPfx "text\x7bcut\x7d\x7d".data r1 then
          "Ecut".data ++ eTextCutGo fuel (r1.drop 10)
        else c :: eTextCutGo fuel rest
      | _ => c :: eTextCutGo fuel rest
    else c :: eTextCutGo fuel rest

/-- The generic E-subscript pass: a capital E, an underscore and a braced
non-empty group collapse to E followed by the group. -/
def eSubGo : Nat → List Char → List Char
  | 0, l => l
  | _, [] => []
  | fuel + 1, c :: rest =>
    if c = 'E' then
      match rest with
      | '_' :: '\x7b' :: r0 =>
        match braceSplit r0 with
        | some (content, r1) =>
          if content ≠ [] then 'E' :: content ++ eSubGo fuel r1
          else c :: eSubGo fuel rest
        | none => c :: eSubGo fuel rest
      | _ => c :: eSubGo fuel rest
    else c :: eSubGo fuel rest

/-- The JavaScript word-character class. -/
def isWordChar (c : Char) : Bool :=
  ('a' ≤ c && c ≤ 'z') || ('A' ≤ c && c ≤ 'Z') || ('0' ≤ c && c ≤ '9') || c = '_'

/-- The generic word-subscript pass: a word character, an underscore and a
braced non-empty group collapse to the character followed by the group. -/
def wordSubGo : Nat → List Char → List Char
  | 0, l => l
  | _, [] => []
  | fuel + 1, c :: rest =>
    if isWordChar c then
      match rest with
      | '_' :: '\x7b' :: r0 =>
        match braceSplit r0 with
        | some (content, r1) =>
          if content ≠ [] then c :: content ++ wordSubGo fuel r1
          else c :: wordSubGo fuel rest
        | none => c :: wordSubGo fuel rest
      | _ => c :: wordSubGo fuel rest
    else c :: wordSubGo fuel rest

/-- A scientific-notation pass: the digits one and zero, an optional caret,
an optional opening brace, a minus sign, the digit `dig`, and an optional
closing brace are replaced by `rep`. -/
def sciGo (dig : Char) (rep : List Char) : Nat → List Char → List Char
  | 0, l => l
  | _, [] => []
  | fuel + 1, c :: rest =>
    if c = '1' then
      match rest with
      | '0' :: r0 =>
        let r1 := if isPfx ['^'] r0 then r0.drop 1 else r0
        let r2 := if isPfx ['\x7b'] r1 then r1.drop 1 else r1
        match r2 with
        | '-' :: d :: r3 =>
          if d = dig then
            let r4 := if isPfx ['\x7d'] r3 then r3.drop 1 else r3
            rep ++ sciGo dig rep fuel r4
          else c :: sciGo dig rep fuel rest
        | _ => c :: sciGo dig rep fuel rest
      | _ => c :: sciGo dig rep fuel rest
    else c :: sciGo dig rep fuel rest

/-- A unit-spacing pass: a digit immediately followed by the unit gets one
space inserted before the unit. -/
def unitSpaceGo (unit : List Char) : Nat → List Char → List Char
  | 0, l => l
  | _, [] => []
  | fuel + 1, c :: rest =>
    if c.isDigit && isPfx unit rest then
      c :: ' ' :: unit ++ unitSpaceGo unit fuel (rest.drop unit.length)
    else c :: unitSpaceGo unit fuel rest

def unitSpace (unit : List Char) (l : List Char) : List Char :=
  unitSpaceGo unit l.length l

/-- `applyLatexTransformations` of `formatting.ts`: the ordered rewrite
pipeline. -/
def applyLatexTransformations (l : List Char) : List Char :=
  let r := l.filter (fun c => c ≠ '$')
  let r := textUnwrap r
  let r := barUnwrap r
  let r := scriptBracedGo '^' supMap r.length r
  let r := scriptBareGo '^' supMap r.length r
  let r := scriptBracedGo '_' subMap r.length r
  let r := scriptBareGo '_' subMap r.length r
  let r := symbolMap.foldl (fun acc p => replAll p.1.data p.2.data acc) r
  let r := eTextCutGo r.length r
  let r := replAll "E_\x7bcut\x7d".data "Ecut".data r
  let r := eSubGo r.length r
  let r := wordSubGo r.length r
  let r := sciGo '4' "10⁻⁴".data r.length r
  let r := sciGo '5' "10⁻⁵".data r.length r
  let r := sciGo '8' "10⁻⁸".data r.length r
  let r := replAll "MoS2".data "MoS₂".data r
  let r := replAll "CO2".data "CO₂".data r
  let r := replAll "H2O".data "H₂O".data r
  let r := unitSpace "Å".data r
  let r := unitSpace "Ry".data r
  let r := unitSpace "eV".data r
  let r := unitSpace "meV".data r
  r

/- ======================= formatLine (formatting.ts) ===================== -/

/-- The opening-bracket-or-quote class used by the inter-segment space
rule. -/
def isOpenBracket (c : Char) : Bool :=
  c = '(' || c = '[' || c = '\x7b' || c = '"' || c = '\x27' || c = '\x60'

/-- `getPlainTextFromSegments` of `formatting.ts` (also the inline plain
text computation of `formatLine`): join segment texts, inserting one space
before a non-normal segment whose predecessor does not end in whitespace or
an opening bracket/quote. -/
def getPlainTextFromSegments (segments : List TextSegment) : List Char :=
  (segments.enum.map (fun p =>
    let i := p.1
    let seg := p.2
    let pfx : List Char :=
      if i > 0 && seg.style ≠ SegStyle.normal then
        match segments.get? (i - 1) with
        | some prevSeg =>
          match lastChar? prevSeg.text with
          | some lc =>
            if !(jsWs lc) && !(isOpenBracket lc) then [' '] else []
          | none => []
        | none => []
      else []
    pfx ++ seg.text)).flatten

/-- Braille blank or JavaScript whitespace (the leading class of the task
and header regexes). -/
def wsOrBraille (c : Char) : Bool := c.toNat = 0x2800 || jsWs c

/-- Length of the match of the full task-heading regex of `formatLine`
(leading blanks, hashes, optional bold marker, the word Task, digits, a
colon, optional bold marker) at the start of the text, if it matches.
The optional bold marker before Task is tried greedily; when it is present
but the rest fails, the regex backtracking retry without it necessarily
fails too (the word Task cannot start with an asterisk), so no explicit
backtracking is needed. -/
def matchTaskALen (l : List Char) : Option Nat :=
  let n0 := (l.takeWhile wsOrBraille).length
  let r0 := l.drop n0
  let nh := (r0.takeWhile (fun c => c = '#')).length
  if nh = 0 then none else
  let r1 := r0.drop nh
  let nw1 := (r1.takeWhile jsWs).length
  let r2 := r1.drop nw1
  let base := n0 + nh + nw1
  let afterTask (start : Nat) (r : List Char) : Option Nat :=
    if (r.take 4).map Char.toLower = "task".data then
      let r3 := r.drop 4
      let nw2 := (r3.takeWhile jsWs).length
      if nw2 = 0 then none else
      let r4 := r3.drop nw2
      let nd := (r4.takeWhile Char.isDigit).length
      if nd = 0 then none else
      match r4.drop nd with
      | c :: r6 =>
        if c = ':' || c = '：' then
          let nw3 := (r6.takeWhile jsWs).length
          let r7 := r6.drop nw3
          let (nb2, r8) : Nat × List Char :=
            if isPfx ['*', '*'] r7 then (2, r7.drop 2) else (0, r7)
          some (start + 4 + nw2 + nd + 1 + nw3 + nb2 + (r8.takeWhile jsWs).length)
        else none
      | [] => none
    else none
  if isPfx ['*', '*'] r2 then afterTask (base + 2) (r2.drop 2) else afterTask base r2

/-- Length of the match of the fallback bare task regex (the word Task,
digits, a colon) at the start of the text, if it matches. -/
def matchTaskBLen (l : List Char) : Option Nat :=
  if (l.take 4).map Char.toLower = "task".data then
    let r := l.drop 4
    let nw := (r.takeWhile jsWs).length
    if nw = 0 then none else
    let r2 := r.drop nw
    let nd := (r2.takeWhile Char.isDigit).length
    if nd = 0 then none else
    match r2.drop nd with
    | c :: r3 =>
      if c = ':' || c = '：' then some (4 + nw + nd + 1 + (r3.takeWhile jsWs).length)
      else none
    | [] => none
  else none

/-- Length of the match of the header regex of `formatLine` (leading
blanks, one to three hashes, trailing blanks) at the start of the text. -/
def matchHeaderLen (l : List Char) : Option Nat :=
  let n0 := (l.takeWhile wsOrBraille).length
  let r0 := l.drop n0
  let nh := min (r0.takeWhile (fun c => c = '#')).length 3
  if nh = 0 then none else
  let r1 := r0.drop nh
  some (n0 + nh + (r1.takeWhile wsOrBraille).length)

/-- Length of the bullet-marker match (whitespace, a dash or asterisk, at
least one whitespace) at the start of the text. -/
def matchBulletLen (l : List Char) : Option Nat :=
  let n0 := (l.takeWhile jsWs).length
  match l.drop n0 with
  | c :: r =>
    if c = '-' || c = '*' then
      let nw := (r.takeWhile jsWs).length
      if nw = 0 then none else some (n0 + 1 + nw)
    else none
  | [] => none

/-- Does the text start (after whitespace) with a double asterisk? -/
def startsBoldAfterWs (l : List Char) : Bool :=
  isPfx ['*', '*'] (l.dropWhile jsWs)

/-- Numbered-list normalization: digits, a dot and whitespace become
digits, a dot and a single space. -/
def numberedNorm (l : List Char) : List Char :=
  let ds := l.takeWhile Char.isDigit
  if ds = [] then l else
  match l.drop ds.length with
  | '.' :: r =>
    let nw := (r.takeWhile jsWs).length
    if nw = 0 then l else ds ++ ". ".data ++ r.drop nw
  | _ => l

/-- Bullet-glyph normalization: a leading bullet glyph becomes a dash.
(`formatLine` operates on single lines, so only the start-of-string case of
the multiline regex is reachable.) -/
def bulletToDash (l : List Char) : List Char :=
  let n0 := (l.takeWhile jsWs).length
  match l.drop n0 with
  | '•' :: r =>
    let nw := (r.takeWhile jsWs).length
    if nw = 0 then l else "- ".data ++ r.drop nw
  | _ => l

/-- The result record of `formatLine`. -/
structure FormattedLine where
  plainText : List Char
  isHeader : Bool
  isTask : Bool
  addEmptyBefore : Bool
  segments : List TextSegment
deriving DecidableEq, Repr

/-- `formatLine` of `formatting.ts` (the strip-task-prefix flag is called
`stripTaskPfx` here). -/
def formatLine (line : List Char) (stripTaskPfx : Bool) (inCodeBlock : Bool) :
    FormattedLine :=
  if inCodeBlock then
    ⟨line, false, false, false, [⟨line, .code⟩]⟩
  else
  let text := line.map (fun c => if c.toNat = 0x2800 then ' ' else c)
  let text :=
    if isPfx ['>'] (trimJs text) then
      if isPfx "> ".data text then text.drop 2
      else if isPfx ['>'] text then text.drop 1
      else text
    else text
  let taskLen :=
    match matchTaskALen text with
    | some n => some n
    | none => matchTaskBLen text
  let isTask := taskLen.isSome
  let addEmptyBefore := taskLen.isSome
  let text :=
    match taskLen with
    | some n =>
      if stripTaskPfx then
        let t := trimJs (replFirst (text.take n) [] text)
        let t :=
          if isSfx ['*', '*'] t && !isPfx ['*', '*'] t then
            trimJs (t.take (t.length - 2))
          else t
        if !isPfx ['*', '*'] t && t.length > 0 then
          '*' :: '*' :: (t ++ ['*', '*'])
        else t
      else text
    | none => text
  let hdrLen := matchHeaderLen text
  let isHeader := hdrLen.isSome
  let addEmptyBefore := addEmptyBefore || (isHeader && !isTask)
  let text :=
    match hdrLen with
    | some n => text.drop n
    | none => text
  let text :=
    if (matchBulletLen text).isSome && !startsBoldAfterWs text then
      match matchBulletLen text with
      | some n => '•' :: ' ' :: text.drop n
      | none => text
    else text
  let text := numberedNorm text
  let text := bulletToDash text
  let segments := parseStyledSegments text
  let transformed := segments.map (fun seg =>
    if seg.style = SegStyle.code then seg
    else ⟨applyLatexTransformations seg.text, seg.style⟩)
  ⟨getPlainTextFromSegments transformed, isHeader, isTask, addEmptyBefore, transformed⟩

/- ============== Segment-aware wrapping (processSummaryLine) ============= -/

/-- `ProcessedLine` of the text-processing module. -/
structure ProcessedLine where
  plainText : List Char
  segments : List TextSegment
  isHeader : Bool
  isTask : Bool
deriving DecidableEq, Repr

/-- The mutable locals of the wrapping loop of `processSummaryLine`. -/
structure WrapAcc where
  results : List ProcessedLine
  cur : List TextSegment
  curLen : Nat
  isFirst : Bool
deriving Repr

/-- The `pushLine` closure of `processSummaryLine`: flush the current
segments as one output line (plain text computed with the inter-segment
space rule), marking only the first flushed line as a header. -/
def wrapPush (isHeaderF isTaskF : Bool) (a : WrapAcc) : WrapAcc :=
  { results := a.results ++
      [{ plainText := getPlainTextFromSegments a.cur
       , segments := a.cur
       , isHeader := a.isFirst && isHeaderF
       , isTask := isTaskF }]
  , cur := [], curLen := 0, isFirst := false }

/-- The inter-segment one-space accounting of the wrapping loop. -/
def segPrefixLen (currentSegments : List TextSegment) (style : SegStyle) : Nat :=
  match currentSegments.getLast? with
  | none => 0
  | some prevSeg =>
    if style ≠ SegStyle.normal then
      match lastChar? prevSeg.text with
      | some lc => if !(jsWs lc) && !(isOpenBracket lc) then 1 else 0
      | none => 0
    else 0

/-- JavaScript `String.prototype.lastIndexOf(' ', fromIdx)`: the greatest
index of a space at most the clamped start index, `-1` when none. -/
def lastIndexOfSpace (l : List Char) (fromIdx : Int) : Int :=
  let hi : Int := min (max fromIdx 0) (l.length : Int)
  match ((List.range l.length).filter
      (fun i => l.get? i = some ' ' && decide ((i : Int) ≤ hi))).getLast? with
  | some i => (i : Int)
  | none => -1

/-- The inner `while` of the wrapping loop of `processSummaryLine` for one
segment: split the segment text at backward-searched spaces (or hard-break
at the width when the current line is empty) until the rest fits.  The fuel
is initialised at twice the text length plus two, which the loop can never
exhaust (every two iterations shorten the text). -/
def wrapSegLoop (isHeaderF isTaskF : Bool) (contentWidth : Nat) (style : SegStyle) :
    Nat → List Char → Nat → WrapAcc → WrapAcc
  | 0, segText, prefLen, a =>
    if segText ≠ [] then
      { a with cur := a.cur ++ [⟨segText, style⟩]
             , curLen := a.curLen + prefLen + segText.length }
    else a
  | fuel + 1, segText, prefLen, a =>
    if a.curLen + prefLen + segText.length > contentWidth then
      let available : Int := (contentWidth : Int) - (a.curLen : Int) - (prefLen : Int)
      let lastSpace := lastIndexOfSpace segText available
      if lastSpace > 0 then
        let bp := lastSpace.toNat
        let firstPart := segText.take bp
        let restPart := segText.drop (bp + 1)
        let a' :=
          if firstPart ≠ [] then
            { a with cur := a.cur ++ [⟨firstPart, style⟩]
                   , curLen := a.curLen + prefLen + firstPart.length }
          else a
        wrapSegLoop isHeaderF isTaskF contentWidth style fuel restPart 0
          (wrapPush isHeaderF isTaskF a')
      else if a.curLen = 0 then
        let bp := contentWidth
        let firstPart := segText.take bp
        let restPart := segText.drop (bp + 1)
        let a' :=
          if firstPart ≠ [] then
            { a with cur := a.cur ++ [⟨firstPart, style⟩]
                   , curLen := a.curLen + prefLen + firstPart.length }
          else a
        wrapSegLoop isHeaderF isTaskF contentWidth style fuel restPart 0
          (wrapPush isHeaderF isTaskF a')
      else
        wrapSegLoop isHeaderF isTaskF contentWidth style fuel segText 0
          (wrapPush isHeaderF isTaskF a)
    else
      if segText ≠ [] then
        { a with cur := a.cur ++ [⟨segText, style⟩]
               , curLen := a.curLen + prefLen + segText.length }
      else a

/-- The wrapping phase of `processSummaryLine` over a segment sequence. -/
def wrapSegments (isHeaderF isTaskF : Bool) (segments : List TextSegment)
    (contentWidth : Nat) : List ProcessedLine :=
  let a := segments.foldl
    (fun a segment =>
      wrapSegLoop isHeaderF isTaskF contentWidth segment.style
        (2 * segment.text.length + 2) segment.text
        (segPrefixLen a.cur segment.style) a)
    { results := [], cur := [], curLen := 0, isFirst := true }
  (if a.cur ≠ [] then wrapPush isHeaderF isTaskF a else a).results

/-- `processSummaryLine` of the text-processing module. -/
def processSummaryLine (line : List Char) (contentWidth : Nat)
    (stripTaskPfx inCodeBlock : Bool) : List ProcessedLine :=
  let formatted := formatLine line stripTaskPfx inCodeBlock
  if formatted.plainText.length ≤ contentWidth then
    [{ plainText := formatted.plainText, segments := formatted.segments,
       isHeader := formatted.isHeader, isTask := formatted.isTask }]
  else
    wrapSegments formatted.isHeader formatted.isTask formatted.segments contentWidth

/- ==================== Committed items and history ====================== -/

/-- Variant payloads of a committed item's `content`. -/
inductive ItemContent
  | text (s : Option String)
  | plan (planContent : String) (isPlanComplete : Bool) (isContinuation : Bool)
      (committedPlanLines : Option Nat)
  | taskPanel (description : String) (taskNum : Nat)
  | codeSnippet (name content : String) (isComplete isContinuation : Bool)
  | codeResult (output filePath : String)
  | banner (modelName : String) (pmgConfigured : Bool)
deriving DecidableEq, Repr

/-- The string payload of a content value, when it is one (used by the
final-summary de-duplication comparisons). -/
def contentStr? : ItemContent → Option String
  | .text s => s
  | _ => none

/-- `CommittedItem` of `hooks/types` (type discriminators kept as the
source's strings). -/
structure CommittedItem where
  id : String
  type : String
  content : ItemContent
  agentName : Option String := none
  isError : Option Bool := none
deriving DecidableEq, Repr

/-- One recorded item of a checkpoint history's per-task item lists. -/
structure HistItem where
  type : String
  content : ItemContent
  isError : Option Bool := none
deriving DecidableEq, Repr

/-- The `history` payload of a `checkpoint_info` message.  The
string-keyed task maps of the wire format are modelled as association
lists over the numeric task index. -/
structure CheckpointHistory where
  plan : List String
  full_plan_text : String := ""
  completed_steps : List String := []
  operator_items_by_task : List (Nat × List HistItem) := []
  evaluator_items_by_task : List (Nat × List HistItem) := []
  step_results : List (Nat × String) := []
  current_task : Option Nat := none
  total_tasks : Option Nat := none
deriving DecidableEq, Repr

/-- Task-map lookup (an absent key yields the empty list, as the source's
or-empty default does). -/
def lookupTask (m : List (Nat × List HistItem)) (i : Nat) : List HistItem :=
  match m.find? (fun p => p.1 = i) with
  | some p => p.2
  | none => []

/-- Step-result lookup. -/
def lookupResult (m : List (Nat × String)) (i : Nat) : Option String :=
  (m.find? (fun p => p.1 = i)).map (fun p => p.2)

/-- `history.plan.join('\n\n')`. -/
def joinPlan : List String → String
  | [] => ""
  | [p] => p
  | p :: rest => p ++ "\n\n" ++ joinPlan rest

/-- Split at newlines (JavaScript `split('\n')`), used for the
committed-plan-lines count. -/
def splitOnNl : List Char → List (List Char)
  | [] => [[]]
  | c :: rest =>
    if c = '\n' then [] :: splitOnNl rest
    else
      match splitOnNl rest with
      | h :: t => (c :: h) :: t
      | [] => [[c]]

/-- Length of the match of the task-prefix regex of
`cleanTaskDescription` (optional hashes and whitespace, the word Task,
digits, a colon, trailing whitespace).  When the optional hash group is
present but the core fails, the backtracking retry without the group also
fails (the core would start at a hash), mirrored by the fallback call. -/
def matchTaskCLen (l : List Char) : Option Nat :=
  let tryCore (base : Nat) (r : List Char) : Option Nat :=
    if (r.take 4).map Char.toLower = "task".data then
      let r1 := r.drop 4
      let nw := (r1.takeWhile jsWs).length
      if nw = 0 then none else
      let r2 := r1.drop nw
      let nd := (r2.takeWhile Char.isDigit).length
      if nd = 0 then none else
      match r2.drop nd with
      | c :: r3 =>
        if c = ':' || c = '：' then some (base + 4 + nw + nd + 1 + (r3.takeWhile jsWs).length)
        else none
      | [] => none
    else none
  let nh := (l.takeWhile (fun c => c = '#')).length
  if nh > 0 then
    let r0 := l.drop nh
    let nw0 := (r0.takeWhile jsWs).length
    match tryCore (nh + nw0) (r0.drop nw0) with
    | some n => some n
    | none => tryCore 0 l
  else tryCore 0 l

/-- `cleanTaskDescription` of `utils/stateHelpers`. -/
def cleanTaskDescription (rawTask : String) : String :=
  let text := trimJs (rawTask.data.takeWhile (fun c => c ≠ '\n'))
  let text := replAll ['*', '*'] [] text
  let text :=
    match text with
    | '*' :: r => r
    | _ => text
  let text := if text.getLast? = some '*' then text.take (text.length - 1) else text
  let text :=
    match matchTaskCLen text with
    | some n => trimJs (text.drop n)
    | none => trimJs text
  let nh := (text.takeWhile (fun c => c = '#')).length
  let text :=
    if nh > 0 then trimJs ((text.drop nh).dropWhile jsWs) else trimJs text
  String.mk text

/- ================== ensureHeader (commands/Run.tsx) ==================== -/

/-- `ensureHeader` of `Run.tsx`.  `parsedPlan` stands for the
`parsedPlanRef` the callback reads, `now` for `Date.now()` (used only by
the task-less evaluator header id). -/
def ensureHeader (parsedPlan : List String) (now : Nat)
    (items : List CommittedItem) (agentName : String) (taskNum : Option Nat) :
    List CommittedItem :=
  if agentName = "operator" && taskNum.isSome then
    let tn := taskNum.getD 0
    let headerId := agentName ++ "-header-task" ++ toString tn
    if items.any (fun item => item.id = headerId) then items
    else
      let lastOpSkip :=
        match items.getLast? with
        | some lastItem => lastItem.agentName = some "operator" && tn = 1
        | none => false
      if lastOpSkip then items
      else if tn = 1 && items.any (fun item => item.id = agentName ++ "-header") then items
      else
        let newItems := items ++
          [{ id := headerId, type := "agent-header",
             content := .text (some agentName), agentName := some agentName }]
        if parsedPlan.length ≥ tn then
          match parsedPlan.get? (tn - 1) with
          | some rawTask =>
            if rawTask ≠ "" then
              newItems ++
                [{ id := agentName ++ "-task-panel-" ++ toString tn,
                   type := "active-task-panel",
                   content := .taskPanel (cleanTaskDescription rawTask) tn,
                   agentName := some agentName }]
            else newItems
          | none => newItems
        else newItems
  else if agentName = "evaluator" then
    let tagged : Bool :=
      match taskNum with
      | some tn => tn != 0
      | none => false
    let evaluatorHeaderForThisTask :=
      if tagged then
        items.any (fun item =>
          item.type = "evaluator-header" &&
          containsL ("task" ++ toString (taskNum.getD 0)).data item.id.data)
      else items.any (fun item => item.type = "evaluator-header")
    if !evaluatorHeaderForThisTask then
      let headerId :=
        if tagged then "evaluator-header-task" ++ toString (taskNum.getD 0)
        else "evaluator-header-" ++ toString now
      items ++
        [{ id := headerId, type := "evaluator-header",
           content := .text (some agentName), agentName := some agentName }]
    else items
  else
    let headerId := agentName ++ "-header"
    if items.any (fun item => item.id = headerId) then items
    else
      items ++
        [{ id := headerId, type := "agent-header",
           content := .text (some agentName), agentName := some agentName }]

/- ============ Checkpoint reconstruction (checkpointHandler.ts) ========== -/

/-- The completed-task block the reconstruction loop pushes for task index
`i` (`buildHistoryItems`, first loop). -/
def histCompletedBlock (history : CheckpointHistory) (i : Nat) : List CommittedItem :=
  let taskNum := i + 1
  let headerPart : List CommittedItem :=
    [{ id := "operator-header-task" ++ toString taskNum ++ "-history",
       type := "agent-header", content := .text (some "operator"),
       agentName := some "operator" }]
  let panelPart : List CommittedItem :=
    if history.plan.length ≥ taskNum then
      match history.plan.get? i with
      | some rawTask =>
        if rawTask ≠ "" then
          [{ id := "operator-task-panel-" ++ toString taskNum ++ "-history",
             type := "active-task-panel",
             content := .taskPanel (cleanTaskDescription rawTask) taskNum,
             agentName := some "operator" }]
        else []
      | none => []
    else []
  let opPart := (lookupTask history.operator_items_by_task i).enum.map (fun pj =>
    ({ id := "operator-item-task" ++ toString taskNum ++ "-" ++ toString pj.1 ++ "-history",
       type := pj.2.type, content := pj.2.content, agentName := some "operator",
       isError := pj.2.isError } : CommittedItem))
  let evalHeaderPart : List CommittedItem :=
    [{ id := "evaluator-header-task" ++ toString taskNum ++ "-history",
       type := "evaluator-header", content := .text (some "evaluator"),
       agentName := some "evaluator" }]
  let evalPart := (lookupTask history.evaluator_items_by_task i).enum.map (fun pj =>
    ({ id := "evaluator-item-task" ++ toString taskNum ++ "-" ++ toString pj.1 ++ "-history",
       type := pj.2.type, content := pj.2.content,
       agentName := some "evaluator" } : CommittedItem))
  let summaryPart : List CommittedItem :=
    match lookupResult history.step_results i with
    | some summary =>
      if summary ≠ "" then
        [{ id := "evaluation-summary-task" ++ toString taskNum ++ "-history",
           type := "evaluation-summary", content := .text (some summary),
           agentName := some "evaluator" }]
      else []
    | none => []
  let statusPart : List CommittedItem :=
    [{ id := "evaluator-status-task" ++ toString taskNum ++ "-history",
       type := "evaluator-status", content := .text (some "Evaluation Passed"),
       agentName := some "evaluator" }]
  headerPart ++ panelPart ++ opPart ++ evalHeaderPart ++ evalPart ++ summaryPart ++ statusPart

/-- The strategist plan prefix of `buildHistoryItems`. -/
def histPlanItems (history : CheckpointHistory) : List CommittedItem :=
  let planContent :=
    if history.plan.length > 0 then joinPlan history.plan else history.full_plan_text
  if planContent ≠ "" then
    [ { id := "strategist-header", type := "agent-header",
        content := .text (some "strategist"), agentName := some "strategist" }
    , { id := "checkpoint-history-plan", type := "plan",
        content := .plan planContent true false (some (splitOnNl planContent.data).length),
        agentName := some "strategist" }
    , { id := "strategist-complete", type := "agent-status",
        content := .text (some "Created Execution Plan"), agentName := some "strategist" } ]
  else []

/-- The in-progress-task suffix of `buildHistoryItems`. -/
def histInProgress (history : CheckpointHistory) : List CommittedItem :=
  let completedCount := history.completed_steps.length
  let currentTaskNum := completedCount + 1
  let remainingOpItems := lookupTask history.operator_items_by_task completedCount
  if remainingOpItems.length > 0 then
    let headerPart : List CommittedItem :=
      [{ id := "operator-header-task" ++ toString currentTaskNum ++ "-history",
         type := "agent-header", content := .text (some "operator"),
         agentName := some "operator" }]
    let panelPart : List CommittedItem :=
      if history.plan.length ≥ currentTaskNum then
        match history.plan.get? (currentTaskNum - 1) with
        | some rawTask =>
          if rawTask ≠ "" then
            [{ id := "operator-task-panel-" ++ toString currentTaskNum ++ "-history",
               type := "active-task-panel",
               content := .taskPanel (cleanTaskDescription rawTask) currentTaskNum,
               agentName := some "operator" }]
          else []
        | none => []
      else []
    let opPart := remainingOpItems.enum.map (fun pj =>
      ({ id := "operator-item-task" ++ toString currentTaskNum ++ "-" ++ toString pj.1 ++ "-history",
         type := pj.2.type, content := pj.2.content, agentName := some "operator",
         isError := pj.2.isError } : CommittedItem))
    let remainingEvalItems := lookupTask history.evaluator_items_by_task completedCount
    let evalPart : List CommittedItem :=
      if remainingEvalItems.length > 0 then
        { id := "evaluator-header-task" ++ toString currentTaskNum ++ "-history",
          type := "evaluator-header", content := .text (some "evaluator"),
          agentName := some "evaluator" } ::
        remainingEvalItems.enum.map (fun pj =>
          ({ id := "evaluator-item-task" ++ toString currentTaskNum ++ "-" ++ toString pj.1 ++ "-history",
             type := pj.2.type, content := pj.2.content, agentName := some "evaluator",
             isError := pj.2.isError } : CommittedItem))
      else []
    headerPart ++ panelPart ++ opPart ++ evalPart
  else []

/-- `buildHistoryItems` of `checkpointHandler.ts` (the sequential pushes of
the source loops become list concatenation). -/
def buildHistoryItems (history : CheckpointHistory) : List CommittedItem :=
  histPlanItems history ++
    (List.range history.completed_steps.length).flatMap (histCompletedBlock history) ++
    histInProgress history

/-- `hasStrategistContent` of `checkpointHandler.ts`. -/
def hasStrategistContent (items : List CommittedItem) : Bool :=
  items.any (fun item =>
    item.id = "strategist-header" ||
    item.id = "execution-plan-complete" ||
    item.id = "checkpoint-history-plan" ||
    (item.type = "agent-header" && item.agentName = some "strategist") ||
    (item.type = "plan" && item.agentName = some "strategist"))

/-- The committed-items updater of `handleCheckpointInfo`. -/
def checkpointCommit (history : CheckpointHistory) (prev : List CommittedItem) :
    List CommittedItem :=
  if hasStrategistContent prev then prev else prev ++ buildHistoryItems history

/- ===================== Session state (Run.tsx) ========================= -/

/-- `AgentInfo` of `messageHandlers.ts`. -/
structure AgentInfo where
  name : String
  status : String
  statusText : Option String
  isStreaming : Bool := false
deriving DecidableEq, Repr

/-- `RagStatusInfo` payload. -/
structure RagStatusInfo where
  status : String
  message : Option String := none
  detail : Option String := none
  progressCurrent : Option Nat := none
  progressTotal : Option Nat := none
deriving DecidableEq, Repr

/-- `TaskProgress`. -/
structure TaskProgress where
  current : Nat
  total : Nat
deriving DecidableEq, Repr

/-- `FileContent`. -/
structure FileContent where
  name : String
  content : String
deriving DecidableEq, Repr

/-- One entry of the `messages` transcript state. -/
structure Message where
  role : String
  content : String
deriving DecidableEq, Repr

/-- The session state of the `Run` component: its `useState` values and
`useRef` cells (ref cells that shadow a state value carry the `RefC`
suffix, since the source updates them independently), plus bookkeeping for
the modelled effects: `escTimerMs`/`exitTimerMs` record an armed gesture
timeout, `bridgeAlive` whether `bridgeRef.current` is non-null,
`bridgeRestartCounter` the restart counter, `restartEnv` the restart-intent
environment flag, and `exitRequested` that `exit()` was called. -/
structure RunState where
  messages : List Message
  status : Option String
  isLoading : Bool
  modelName : String
  ragStatus : Option RagStatusInfo
  ragStatusRefC : Option RagStatusInfo
  isSystemReady : Bool
  showMainUI : Bool
  systemStatus : String
  agents : List AgentInfo
  planContent : String
  isPlanComplete : Bool
  activeFileContent : Option FileContent
  lastCodeResultIsError : Bool
  taskProgress : Option TaskProgress
  taskProgressRefC : Option TaskProgress
  committedItems : List CommittedItem
  bannerCommitted : Bool
  checkpointMode : String
  previousInput : String
  escPressedOnce : Bool
  showInterruptWarning : Bool
  escTimerMs : Option Nat
  exitPressedOnce : Bool
  showExitWarning : Bool
  exitTimerMs : Option Nat
  isInterrupted : Bool
  bridgeRestartCounter : Nat
  bridgeAlive : Bool
  itemIdCounter : Nat
  parsedPlan : List String
  restartEnv : Bool
  exitRequested : Bool
deriving DecidableEq, Repr

/-- The initial state of the `Run` component. -/
def initState : RunState :=
  { messages := [], status := none, isLoading := false, modelName := ""
  , ragStatus := none, ragStatusRefC := none, isSystemReady := false
  , showMainUI := false, systemStatus := "idle", agents := []
  , planContent := "", isPlanComplete := false, activeFileContent := none
  , lastCodeResultIsError := false, taskProgress := none, taskProgressRefC := none
  , committedItems := [], bannerCommitted := false, checkpointMode := "checking"
  , previousInput := "", escPressedOnce := false, showInterruptWarning := false
  , escTimerMs := none, exitPressedOnce := false, showExitWarning := false
  , exitTimerMs := none, isInterrupted := false, bridgeRestartCounter := 0
  , bridgeAlive := true, itemIdCounter := 0, parsedPlan := []
  , restartEnv := false, exitRequested := false }

/-- `generateUniqueId` of `utils/helpers` threaded through the state's id
counter (`now` stands for `Date.now()`). -/
def genUniqueId (pfx : String) (now : Nat) (s : RunState) : String × RunState :=
  let counter := s.itemIdCounter + 1
  (pfx ++ "-" ++ toString now ++ "-" ++ toString counter,
   { s with itemIdCounter := counter })

/-- `applyInterruptResetState` of `utils/stateHelpers`: the partial reset
the interrupt gesture applies.  Note that it sets the stale-message guard
`isInterrupted` to `false`, and that the task-progress ref cell is not
reset. -/
def applyInterruptResetState (s : RunState) : RunState :=
  { s with isLoading := false, status := none, showMainUI := false
         , isSystemReady := false, checkpointMode := "checking"
         , systemStatus := "idle", agents := [], planContent := ""
         , isPlanComplete := false, taskProgress := none
         , isInterrupted := false }

/- ===================== Inbound messages ================================ -/

/-- `status` payload. -/
structure StatusPayload where
  text : Option String
  loading : Bool
deriving DecidableEq, Repr

/-- `agent_event` payload. -/
structure AgentEventPayload where
  agent : String
  event : String
  status : Option String := none
  output : Option String := none
  is_error : Option Bool := none
deriving DecidableEq, Repr

/-- `checkpoint_info` payload. -/
structure CheckpointPayload where
  exists_ : Bool
  previous_input : Option String := none
  history : Option CheckpointHistory := none
deriving DecidableEq, Repr

/-- `completed_run_info` payload. -/
structure CompletedRunPayload where
  exists_ : Bool
  previous_input : Option String := none
  summary : Option String := none
deriving DecidableEq, Repr

/-- The inbound wire messages, one constructor per type discriminator
(`unknown` covers any other discriminator string). -/
inductive Msg
  | ready
  | init (model : Option String)
  | status (payload : StatusPayload)
  | log (text : String)
  | error (message : String) (traceback : Option String)
  | done
  | rag_status (payload : RagStatusInfo)
  | system_ready
  | system_status (status : String)
  | agent_event (payload : AgentEventPayload)
  | plan_stream (content : String) (is_complete : Bool) (parsed_plan : List String)
  | task_progress (current : Option Nat) (total : Option Nat)
  | file_content (name : Option String) (content : Option String)
  | checkpoint_info (payload : Option CheckpointPayload)
  | completed_run_info (payload : CompletedRunPayload)
  | archive_complete (success : Bool)
  | fresh_start_complete
  | clear_checkpoint_complete
  | final_summary (content : Option String)
  | code_result (output : Option String) (success : Option Bool) (file_path : Option String)
  | unknown (ty : String)
deriving DecidableEq, Repr

/-- The `type` discriminator string of a message. -/
def Msg.msgType : Msg → String
  | .ready => "ready"
  | .init _ => "init"
  | .status _ => "status"
  | .log _ => "log"
  | .error _ _ => "error"
  | .done => "done"
  | .rag_status _ => "rag_status"
  | .system_ready => "system_ready"
  | .system_status _ => "system_status"
  | .agent_event _ => "agent_event"
  | .plan_stream _ _ _ => "plan_stream"
  | .task_progress _ _ => "task_progress"
  | .file_content _ _ => "file_content"
  | .checkpoint_info _ => "checkpoint_info"
  | .completed_run_info _ => "completed_run_info"
  | .archive_complete _ => "archive_complete"
  | .fresh_start_complete => "fresh_start_complete"
  | .clear_checkpoint_complete => "clear_checkpoint_complete"
  | .final_summary _ => "final_summary"
  | .code_result _ _ _ => "code_result"
  | .unknown ty => ty

/- ================= Handlers (messageHandlers.ts) ======================= -/

/-- `handleLogMessage`. -/
def handleLogMessage (s : RunState) (text : String) : RunState :=
  match s.messages.getLast? with
  | some lastMsg =>
    if lastMsg.role = "assistant" then
      { s with messages := s.messages.dropLast ++
          [{ lastMsg with content := lastMsg.content ++ text ++ "\n" }] }
    else
      { s with messages := s.messages ++ [{ role := "assistant", content := text ++ "\n" }] }
  | none =>
    { s with messages := s.messages ++ [{ role := "assistant", content := text ++ "\n" }] }

/-- The error text built by `handleErrorMessage`. -/
def mkErrorMsg (message : String) (traceback : Option String) : String :=
  match traceback with
  | some tb =>
    if tb ≠ "" then "Error: " ++ message ++ "\n\n" ++ tb else "Error: " ++ message
  | none => "Error: " ++ message

/-- `handleSystemStatusMessage`. -/
def handleSystemStatusMessage (s : RunState) (st : String) : RunState :=
  if st = "running" then
    { s with systemStatus := "running", agents := [], planContent := ""
           , isPlanComplete := false, taskProgress := none }
  else if st = "completed" then
    { s with systemStatus := "completed"
           , agents := s.agents.map (fun a => { a with status := "complete" }) }
  else s

/-- `handleAgentEventMessage`. -/
def handleAgentEventMessage (now : Nat) (s : RunState) (p : AgentEventPayload) :
    RunState :=
  let currentTaskNum := s.taskProgressRefC.map (fun tp => tp.current)
  let s :=
    if p.event = "step_complete" then
      let s := { s with activeFileContent := none }
      let isExecuteCodeTool :=
        match p.status with
        | some t => containsL "executed".data (t.data.map Char.toLower)
        | none => false
      let toolIsError0 : Bool := p.is_error = some true
      let toolIsError :=
        if !toolIsError0 && isExecuteCodeTool then s.lastCodeResultIsError else toolIsError0
      let s := if isExecuteCodeTool then { s with lastCodeResultIsError := false } else s
      let (toolId, s) := genUniqueId (p.agent ++ "-tool") now s
      let items := ensureHeader s.parsedPlan now s.committedItems p.agent currentTaskNum
      let newToolItem : CommittedItem :=
        { id := toolId, type := "tool", content := .text p.status
        , agentName := some p.agent, isError := some toolIsError }
      let committed :=
        if p.agent = "strategist" &&
            (p.status = some "Reviewed Plan" || p.status = some "Created Replan") then
          let hasPlan := items.any (fun item =>
            item.id = "execution-plan-complete" ||
            item.id = "checkpoint-history-plan" ||
            (item.type = "plan" && item.agentName = some "strategist"))
          match p.output with
          | some out =>
            if !hasPlan && out ≠ "" then
              items ++
                [{ id := "execution-plan-complete", type := "plan"
                 , content := .plan out true false none
                 , agentName := some "strategist" }, newToolItem]
            else items ++ [newToolItem]
          | none => items ++ [newToolItem]
        else items ++ [newToolItem]
      { s with committedItems := committed }
    else if p.event = "log" then
      let isEvaluatorSummary :=
        p.agent = "evaluator" &&
        (match p.status with
         | some t =>
           t ≠ "" &&
           !(containsL "Evaluation Passed".data t.data) &&
           !(containsL "Evaluation Failed".data t.data) &&
           !(isPfx "Evaluating".data t.data)
         | none => false)
      let itemType := if isEvaluatorSummary then "evaluation-summary" else "log"
      let (lid, s) := genUniqueId (p.agent ++ "-log") now s
      let items := ensureHeader s.parsedPlan now s.committedItems p.agent currentTaskNum
      { s with committedItems := items ++
          [{ id := lid, type := itemType, content := .text p.status
           , agentName := some p.agent }] }
    else if p.event = "start" then
      { s with committedItems := ensureHeader s.parsedPlan now s.committedItems p.agent currentTaskNum }
    else if p.event = "complete" then
      match p.status with
      | some t =>
        if t ≠ "" && trimJs t.data ≠ [] then
          let (cid, s) := genUniqueId (p.agent ++ "-complete") now s
          let items := ensureHeader s.parsedPlan now s.committedItems p.agent currentTaskNum
          let statusType := if p.agent = "evaluator" then "evaluator-status" else "agent-status"
          { s with committedItems := items ++
              [{ id := cid, type := statusType, content := .text (some t)
               , agentName := some p.agent }] }
        else s
      | none => s
    else s
  let update (a : AgentInfo) : AgentInfo :=
    { a with
      status :=
        if p.event = "complete" then "complete"
        else if p.event = "log" then a.status else "active"
    , statusText :=
        if p.event = "update" || p.event = "start" || p.event = "complete" then p.status
        else a.statusText
    , isStreaming := false }
  let agents :=
    if s.agents.any (fun a => a.name = p.agent) then
      s.agents.map (fun a => if a.name = p.agent then update a else a)
    else
      s.agents ++
        [{ name := p.agent
         , status := if p.event = "complete" then "complete" else "active"
         , statusText := p.status, isStreaming := false }]
  { s with agents := agents }

/-- `handlePlanStreamMessage`. -/
def handlePlanStreamMessage (s : RunState) (content : String) (isComplete : Bool)
    (pp : List String) : RunState :=
  let s := if pp.length > 0 then { s with parsedPlan := pp } else s
  { s with planContent := content, isPlanComplete := isComplete }

/-- `handleTaskProgressMessage` (the source tests the fields against
`undefined`, so a zero value is accepted). -/
def handleTaskProgressMessage (s : RunState) (current total : Option Nat) : RunState :=
  match current, total with
  | some c, some t =>
    let progress : TaskProgress := { current := c, total := t }
    { s with taskProgress := some progress, taskProgressRefC := some progress }
  | _, _ => s

/-- `handleFileContentMessage`. -/
def handleFileContentMessage (now : Nat) (s : RunState)
    (name content : Option String) : RunState :=
  match name, content with
  | some n, some c =>
    if n ≠ "" && c ≠ "" then
      let currentTaskNum := s.taskProgressRefC.map (fun tp => tp.current)
      let isDup :=
        match s.activeFileContent with
        | some lastContent => lastContent.name = n && lastContent.content = c
        | none => false
      let s := { s with activeFileContent := some { name := n, content := c } }
      if !isDup then
        let items := ensureHeader s.parsedPlan now s.committedItems "operator" currentTaskNum
        { s with committedItems := items ++
            [{ id := "code-snippet-" ++ toString now, type := "code-snippet"
             , content := .codeSnippet n c true false
             , agentName := some "operator" }] }
      else s
    else s
  | _, _ => s

/-- The final-summary presence test shared by `handleCompletedRunInfoMessage`
and `handleFinalSummaryMessage`. -/
def hasFinalSummaryFor (items : List CommittedItem) (summaryContent : String) : Bool :=
  items.any (fun item =>
    (item.id = "final-summary" || item.id = "completed-run-summary") &&
    item.type = "final-summary" &&
    (item.content = ItemContent.text (some summaryContent) ||
     (match contentStr? item.content with
      | some cs => cs.data.take 100 = summaryContent.data.take 100
      | none => false)))

/-- `handleCompletedRunInfoMessage`. -/
def handleCompletedRunInfoMessage (s : RunState) (p : CompletedRunPayload) : RunState :=
  let s := { s with showMainUI := true }
  if p.exists_ then
    let s := { s with checkpointMode := "completed-run-prompt"
                    , previousInput := p.previous_input.getD "" }
    match p.summary with
    | some summaryContent =>
      if summaryContent ≠ "" then
        if hasFinalSummaryFor s.committedItems summaryContent then s
        else
          { s with committedItems := s.committedItems ++
              [{ id := "completed-run-summary", type := "final-summary"
               , content := .text (some summaryContent), agentName := some "system" }] }
      else s
    | none => s
  else s

/-- `handleFinalSummaryMessage`. -/
def handleFinalSummaryMessage (s : RunState) (content : Option String) : RunState :=
  match content with
  | some summaryContent =>
    if summaryContent ≠ "" then
      if hasFinalSummaryFor s.committedItems summaryContent then s
      else
        { s with committedItems := s.committedItems ++
            [{ id := "final-summary", type := "final-summary"
             , content := .text (some summaryContent), agentName := some "system" }] }
    else s
  | none => s

/-- `handleCodeResultMessage`. -/
def handleCodeResultMessage (now : Nat) (s : RunState) (output : Option String)
    (success : Option Bool) (filePath : Option String) : RunState :=
  match output with
  | some out =>
    if out ≠ "" then
      let isError : Bool := success = some false
      let currentTaskNum := s.taskProgressRefC.map (fun tp => tp.current)
      let s := { s with lastCodeResultIsError := isError }
      let (rid, s) := genUniqueId "code-result" now s
      let items := ensureHeader s.parsedPlan now s.committedItems "operator" currentTaskNum
      { s with committedItems := items ++
          [{ id := rid, type := "code-result"
           , content := .codeResult out (filePath.getD "")
           , agentName := some "operator", isError := some isError }] }
    else s
  | none => s

/-- `handleCheckpointInfo` of `checkpointHandler.ts` (state effects; the
stdin writes and the delayed auto-resume command are I/O without further
state effect beyond `setIsLoading(true)`). -/
def handleCheckpointInfo (s : RunState) (payload : Option CheckpointPayload) :
    RunState :=
  let s :=
    match payload with
    | some p =>
      match p.history with
      | some history =>
        let s := if history.plan.length > 0 then { s with parsedPlan := history.plan } else s
        let s := { s with committedItems := checkpointCommit history s.committedItems }
        match history.current_task, history.total_tasks with
        | some c, some t =>
          if c ≠ 0 && t ≠ 0 then
            let progress : TaskProgress := { current := c, total := t }
            { s with taskProgress := some progress, taskProgressRefC := some progress }
          else s
        | _, _ => s
      | none => s
    | none => s
  let exists_ : Bool :=
    match payload with
    | some p => p.exists_
    | none => false
  let prevInput :=
    match payload with
    | some p => p.previous_input.getD ""
    | none => ""
  if s.restartEnv then
    if exists_ then
      { s with checkpointMode := "auto-resume", previousInput := prevInput
             , isLoading := true }
    else { s with checkpointMode := "error" }
  else
    if exists_ then { s with checkpointMode := "prompt", previousInput := prevInput }
    else { s with checkpointMode := "normal" }

/-- `createMessageHandler` of `messageHandlers.ts`: the stale-message guard
followed by the type switch (`now` stands for `Date.now()` wherever a
handler reads it). -/
def dispatch (now : Nat) (msg : Msg) (s : RunState) : RunState :=
  if s.isInterrupted && msg.msgType ≠ "checkpoint_info" && msg.msgType ≠ "system_ready" then
    s
  else
    match msg with
    | .ready => s
    | .init model =>
      match model with
      | some m => if m ≠ "" then { s with modelName := m } else s
      | none => s
    | .status p => { s with status := p.text, isLoading := p.loading }
    | .log text => handleLogMessage s text
    | .error message traceback =>
      { s with messages := s.messages ++
          [{ role := "system", content := mkErrorMsg message traceback }]
             , isLoading := false }
    | .done => { s with isLoading := false, status := none }
    | .rag_status p => { s with ragStatus := some p, ragStatusRefC := some p }
    | .system_ready => { s with isSystemReady := true }
    | .system_status st => handleSystemStatusMessage s st
    | .agent_event p => handleAgentEventMessage now s p
    | .plan_stream c ic pp => handlePlanStreamMessage s c ic pp
    | .task_progress c t => handleTaskProgressMessage s c t
    | .file_content n c => handleFileContentMessage now s n c
    | .checkpoint_info p =>
      handleCheckpointInfo { s with showMainUI := true, isSystemReady := true } p
    | .completed_run_info p => handleCompletedRunInfoMessage s p
    | .archive_complete success =>
      if success then { s with checkpointMode := "normal" } else s
    | .fresh_start_complete => s
    | .clear_checkpoint_complete => { s with checkpointMode := "normal" }
    | .final_summary content => handleFinalSummaryMessage s content
    | .code_result out succ fp => handleCodeResultMessage now s out succ fp
    | .unknown _ => s

/-- Fold a message sequence through the dispatcher. -/
def dispatchAll (msgs : List (Nat × Msg)) (s : RunState) : RunState :=
  msgs.foldl (fun s p => dispatch p.1 p.2 s) s

/- ================ Interrupt/exit gesture (Run.tsx useInput) ============ -/

/-- A keypress as `ink`'s `useInput` reports it. -/
structure KeyInput where
  input : String
  ctrl : Bool
  escape : Bool
deriving DecidableEq, Repr

/-- The 3-second interrupt-warning timeout callback. -/
def escTimerFire (s : RunState) : RunState :=
  { s with escPressedOnce := false, showInterruptWarning := false, escTimerMs := none }

/-- The 3-second exit-warning timeout callback. -/
def exitTimerFire (s : RunState) : RunState :=
  { s with exitPressedOnce := false, showExitWarning := false, exitTimerMs := none }

/-- The exit-chord test of the `useInput` callback (control-c or the
control-d character). -/
def isExitChord (k : KeyInput) : Bool :=
  (k.ctrl && k.input = "c") || k.input = "\x04"

/-- The `useInput` callback of `Run.tsx`: the two-stage exit gesture when
idle, the two-stage ESC interrupt gesture when busy (`now` stands for
`Date.now()` in the interrupt entry's id). -/
def useInputStep (now : Nat) (k : KeyInput) (s : RunState) : RunState :=
  if isExitChord k then
    if !s.isLoading then
      if s.exitPressedOnce then
        { s with exitTimerMs := none, exitPressedOnce := false
               , showExitWarning := false, exitRequested := true }
      else
        { s with exitPressedOnce := true, showExitWarning := true
               , exitTimerMs := some 3000 }
    else s
  else if !s.isLoading then
    if s.escPressedOnce then
      { s with escPressedOnce := false, showInterruptWarning := false }
    else s
  else if k.escape then
    if s.escPressedOnce then
      let s := { s with escTimerMs := none, escPressedOnce := false
                      , showInterruptWarning := false }
      let s :=
        match s.agents.find? (fun a => a.status = "active") with
        | some activeAgent =>
          { s with committedItems := s.committedItems ++
              [({ id := "interrupt-" ++ toString now, type := "log"
                , content := .text (some "✗ Run Interrupted")
                , agentName := some activeAgent.name } : CommittedItem)] }
        | none => s
      let s := if s.bridgeAlive then { s with bridgeAlive := false } else s
      let s := applyInterruptResetState s
      { s with bridgeRestartCounter := s.bridgeRestartCounter + 1 }
    else
      { s with escPressedOnce := true, showInterruptWarning := true
             , escTimerMs := some 3000 }
  else s

/- ============ Live header/append events (for the C1 invariant) ========= -/

/-- A live transcript operation: a header-ensuring call (as every
content-append handler performs first) or a content append. -/
inductive LiveEvent
  | ensure (agentName : String) (taskNum : Option Nat) (now : Nat)
  | append (item : CommittedItem)
deriving DecidableEq, Repr

/-- One live operation on the committed-item log. -/
def liveStep (parsedPlan : List String) (items : List CommittedItem) :
    LiveEvent → List CommittedItem
  | .ensure a t now => ensureHeader parsedPlan now items a t
  | .append it => items ++ [it]

/-- Fold a live operation sequence over the log. -/
def runLive (parsedPlan : List String) (evts : List LiveEvent)
    (items : List CommittedItem) : List CommittedItem :=
  evts.foldl (liveStep parsedPlan) items

/-- The two header type discriminators. -/
def isHeaderType (ty : String) : Bool :=
  ty = "agent-header" || ty = "evaluator-header"

/-- Live-only event sequences: content appends never carry a header type
(no content-append handler of the source uses a header type). -/
def liveOnly (evts : List LiveEvent) : Bool :=
  evts.all (fun e =>
    match e with
    | .append it => !(isHeaderType it.type)
    | _ => true)

/-- Number of header items of type `ty` with exact id `hid`. -/
def cntHeader (items : List CommittedItem) (ty hid : String) : Nat :=
  items.countP (fun it => it.type = ty && it.id = hid)

/-- Number of untagged evaluator headers (no task marker in the id). -/
def cntUntaggedEval (items : List CommittedItem) : Nat :=
  items.countP (fun it =>
    it.type = "evaluator-header" && !(containsL "task".data it.id.data))

/-- At most one header per (agent, task) pair, expressed over the id
conventions `ensureHeader` realises the pairs with: one operator header per
task number, one tagged evaluator header per task number, one untagged
evaluator header, and one fixed header per agent name. -/
def headerInv (items : List CommittedItem) : Prop :=
  (∀ n : Nat,
      cntHeader items "agent-header" ("operator-header-task" ++ toString n) ≤ 1) ∧
  (∀ n : Nat,
      cntHeader items "evaluator-header" ("evaluator-header-task" ++ toString n) ≤ 1) ∧
  cntUntaggedEval items ≤ 1 ∧
  (∀ a : String, cntHeader items "agent-header" (a ++ "-header") ≤ 1)

/- ================= Concrete inputs used by the theorems ================ -/

/-- The claim C7 input segments (the formatted segments of the line
containing the code span 10.5). -/
def c7Segments : List TextSegment :=
  [⟨"The quantity ".data, .normal⟩, ⟨"10.5".data, .code⟩, ⟨" cannot fit".data, .normal⟩]

/-- A checkpoint history with one completed step whose plan entry is the
empty string (`plan.length = 2 ≥ completedCount + 1`). -/
def c2History : CheckpointHistory :=
  { plan := ["", "b"]
  , completed_steps := ["done"]
  , operator_items_by_task := [(0, [{ type := "tool", content := .text (some "x") }])]
  , step_results := [(0, "sum")] }

/-- A well-formed checkpoint history (non-empty plan entries and summaries)
with one completed step, used by witnesses. -/
def c2GoodHistory : CheckpointHistory :=
  { plan := ["Task 1: alpha", "Task 2: beta"]
  , completed_steps := ["r1"]
  , operator_items_by_task :=
      [(0, [{ type := "tool", content := .text (some "did a"), isError := some true }])]
  , evaluator_items_by_task := [(0, [{ type := "log", content := .text (some "ok") }])]
  , step_results := [(0, "summary0")]
  , current_task := some 2, total_tasks := some 2 }

/-- The ordered block claim C2 states reconstruction produces for each
completed task index `i`, written from the claim's words: primary-worker
header, task box, the recorded primary-worker items in original order with
error flags preserved, reviewer header, the recorded reviewer items, the
recorded summary when present, then a terminal Evaluation-Passed status. -/
def claimCompletedBlock (history : CheckpointHistory) (i : Nat) : List CommittedItem :=
  let taskNum := i + 1
  [ { id := "operator-header-task" ++ toString taskNum ++ "-history"
    , type := "agent-header", content := .text (some "operator")
    , agentName := some "operator" }
  , { id := "operator-task-panel-" ++ toString taskNum ++ "-history"
    , type := "active-task-panel"
    , content := .taskPanel (cleanTaskDescription ((history.plan.get? i).getD "")) taskNum
    , agentName := some "operator" } ] ++
  (lookupTask history.operator_items_by_task i).enum.map (fun pj =>
    ({ id := "operator-item-task" ++ toString taskNum ++ "-" ++ toString pj.1 ++ "-history"
     , type := pj.2.type, content := pj.2.content, agentName := some "operator"
     , isError := pj.2.isError } : CommittedItem)) ++
  [ { id := "evaluator-header-task" ++ toString taskNum ++ "-history"
    , type := "evaluator-header", content := .text (some "evaluator")
    , agentName := some "evaluator" } ] ++
  (lookupTask history.evaluator_items_by_task i).enum.map (fun pj =>
    ({ id := "evaluator-item-task" ++ toString taskNum ++ "-" ++ toString pj.1 ++ "-history"
     , type := pj.2.type, content := pj.2.content
     , agentName := some "evaluator" } : CommittedItem)) ++
  (match lookupResult history.step_results i with
   | some summary =>
     [{ id := "evaluation-summary-task" ++ toString taskNum ++ "-history"
      , type := "evaluation-summary", content := .text (some summary)
      , agentName := some "evaluator" }]
   | none => []) ++
  [ { id := "evaluator-status-task" ++ toString taskNum ++ "-history"
    , type := "evaluator-status", content := .text (some "Evaluation Passed")
    , agentName := some "evaluator" } ]

/-- The checkpoint-info payload wrapping the well-formed history, used by
witnesses. -/
def c2GoodPayload : CheckpointPayload :=
  { exists_ := true, previous_input := some "hi", history := some c2GoodHistory }

/-- The committed item the double-ESC interrupt appends for the active
agent. -/
def interruptItem (now : Nat) (agentNm : String) : CommittedItem :=
  { id := "interrupt-" ++ toString now, type := "log"
  , content := .text (some "✗ Run Interrupted"), agentName := some agentNm }

/-- Is an item a Run-Interrupted entry? -/
def isInterruptEntry (it : CommittedItem) : Bool :=
  it.content = ItemContent.text (some "✗ Run Interrupted")

/-- A checkpoint history with one completed step and recorded
primary-worker items for the in-progress task 2, used by the claim C1
counterexample. -/
def c1History : CheckpointHistory :=
  { plan := ["Task 1: alpha", "Task 2: beta"]
  , completed_steps := ["r1"]
  , operator_items_by_task :=
      [(0, [{ type := "tool", content := .text (some "did a") }]),
       (1, [{ type := "tool", content := .text (some "did b"), isError := some true }])]
  , evaluator_items_by_task := [(0, [{ type := "log", content := .text (some "ok") }])]
  , step_results := [(0, "summary0")]
  , current_task := some 2, total_tasks := some 2 }

/-- The two dispatched messages of the claim C1 counterexample: a
checkpoint reconstruction (one completed step, recorded items for the
in-progress task 2) followed by a live operator start event. -/
def c1Messages : List (Nat × Msg) :=
  [ (1000, .checkpoint_info (some
      { exists_ := true, previous_input := some "hi", history := some c1History }))
  , (1001, .agent_event { agent := "operator", event := "start" }) ]

/-- A small live event sequence used by the claim C1 witness. -/
def c1LiveEvents : List LiveEvent :=
  [ .ensure "operator" (some 1) 5
  , .append { id := "operator-tool-5-1", type := "tool"
            , content := .text (some "did"), agentName := some "operator" }
  , .ensure "evaluator" (some 1) 6
  , .ensure "operator" (some 1) 7 ]

end Quasar

namespace Quasar

set_option maxRecDepth 100000

/- ========================= Claim theorems ============================== -/

/-- Claim C8: `applyLatexTransformations` on the string containing an
E-cut subscript, a Greek alpha macro and an approx macro yields exactly the
rendered string. -/
theorem c8_latex_example :
    applyLatexTransformations "E_\x7bcut\x7d = 80 Ry, \\alpha \\approx 1".data =
      "Ecut = 80 Ry, α ≈ 1".data := by
  decide

/-- Claim C5 (counterexample): on the task heading line with an inner bold
word, `formatLine` with prefix stripping does not produce the plain text
the claim states (it inserts a double space), and the bold segments are not
a single segment covering the words lattice parameter (the re-wrapping of
the stripped text in bold markers inverts the inner bold spans). -/
theorem c5_counterexample :
    (formatLine "### Task 2: Optimize the **lattice** parameter".data true false).plainText ≠
        "Optimize the lattice parameter".data ∧
      ((formatLine "### Task 2: Optimize the **lattice** parameter".data true false).segments.filter
          (fun s => s.style = SegStyle.bold)).map TextSegment.text ≠
        ["lattice parameter".data] := by
  exact ⟨by decide, by decide⟩

/-- Claim C5 (amended): `formatLine` on that line returns `isTask = true`,
`addEmptyBefore = true`, plain text with a double space before the word
parameter, and three segments with the bolding inverted: the prefix and
suffix of the description are bold while the word lattice itself is
normal. -/
theorem c5_formatLine_actual :
    formatLine "### Task 2: Optimize the **lattice** parameter".data true false =
      { plainText := "Optimize the lattice  parameter".data
      , isHeader := false
      , isTask := true
      , addEmptyBefore := true
      , segments :=
          [⟨"Optimize the ".data, .bold⟩, ⟨"lattice".data, .normal⟩,
           ⟨" parameter".data, .bold⟩] } := by
  decide

/-- Claim C7: wrapping the segment sequence around the code span 10.5 at
content width 10 never splits the code segment (it survives as the single
code segment of the output, intact on a line of its own), and every chosen
break point is at a space outside the code segment: the flattened input
plain text is recovered by re-inserting one dropped space character at the
first and at the last line boundary (the other boundaries drop nothing). -/
theorem c7_wrap_code_segment :
    wrapSegments false false c7Segments 10 =
        [ { plainText := "The".data, segments := [⟨"The".data, .normal⟩]
          , isHeader := false, isTask := false }
        , { plainText := "quantity ".data, segments := [⟨"quantity ".data, .normal⟩]
          , isHeader := false, isTask := false }
        , { plainText := "10.5".data, segments := [⟨"10.5".data, .code⟩]
          , isHeader := false, isTask := false }
        , { plainText := " cannot".data, segments := [⟨" cannot".data, .normal⟩]
          , isHeader := false, isTask := false }
        , { plainText := "fit".data, segments := [⟨"fit".data, .normal⟩]
          , isHeader := false, isTask := false } ] ∧
      ((wrapSegments false false c7Segments 10).map
          (fun l => l.segments)).flatten.filter (fun s => s.style = SegStyle.code) =
        [⟨"10.5".data, .code⟩] ∧
      getPlainTextFromSegments c7Segments =
        "The".data ++ [' '] ++ "quantity ".data ++ "10.5".data ++
          " cannot".data ++ [' '] ++ "fit".data := by
  exact ⟨by decide, by decide, by decide⟩

/-- Claim C3 (code bug): the interrupt path never sets the stale-message
guard: `applyInterruptResetState` (which the double-ESC interrupt applies)
forces the guard to `false`, and the readiness-handshake message leaves the
guard untouched (it only marks the system ready), so no transition sets the
guard and the handshake is not what releases it. -/
theorem c3_interrupt_guard_code_bug :
    ∀ s : RunState,
      (applyInterruptResetState s).isInterrupted = false ∧
      (∀ now : Nat, (dispatch now Msg.system_ready s).isInterrupted = s.isInterrupted) := by
  intro s
  refine ⟨rfl, ?_⟩
  intro now
  cases hb : s.isInterrupted <;> simp [dispatch, Msg.msgType, hb]

/-- Claim C4: while the interrupted flag is set, dispatching any message
whose discriminator is neither checkpoint-info nor the readiness handshake
returns the state unchanged (every state component, the committed-item log,
agents, status, task progress and the ref cells included). -/
theorem c4_interrupted_drop_frame :
    ∀ (now : Nat) (msg : Msg) (s : RunState),
      s.isInterrupted = true →
      msg.msgType ≠ "checkpoint_info" →
      msg.msgType ≠ "system_ready" →
      dispatch now msg s = s := by
  intro now msg s h1 h2 h3
  simp [dispatch, h1, h2, h3]

/-- Witness for claim C4 at a concrete interrupted state and a stale log
message. -/
theorem c4_interrupted_drop_frame_witness :
    ({ initState with isInterrupted := true } : RunState).isInterrupted = true ∧
      (Msg.log "stale").msgType ≠ "checkpoint_info" ∧
      (Msg.log "stale").msgType ≠ "system_ready" ∧
      dispatch 7 (Msg.log "stale") { initState with isInterrupted := true } =
        { initState with isInterrupted := true } :=
  ⟨rfl, by decide, by decide,
    c4_interrupted_drop_frame 7 (Msg.log "stale")
      { initState with isInterrupted := true } rfl (by decide) (by decide)⟩

/-- Claim C9: while busy, a first ESC arms the interrupt warning with the
3000-millisecond window and changes nothing else; the timeout clears the
warning flags and nothing else; a second ESC (while the warning is armed)
appends exactly one Run-Interrupted entry tagged with the active agent's
name, kills the subprocess, and increments the restart counter exactly
once. -/
theorem c9_esc_gesture :
    (∀ (now : Nat) (k : KeyInput) (s : RunState),
        isExitChord k = false → s.isLoading = true → s.escPressedOnce = false →
        k.escape = true →
        useInputStep now k s =
          { s with escPressedOnce := true, showInterruptWarning := true
                 , escTimerMs := some 3000 }) ∧
    (∀ s : RunState,
        escTimerFire s =
          { s with escPressedOnce := false, showInterruptWarning := false
                 , escTimerMs := none }) ∧
    (∀ (now : Nat) (k : KeyInput) (s : RunState) (ag : AgentInfo),
        isExitChord k = false → s.isLoading = true → s.escPressedOnce = true →
        k.escape = true →
        s.agents.find? (fun a => a.status = "active") = some ag →
        (useInputStep now k s).committedItems =
            s.committedItems ++ [interruptItem now ag.name] ∧
        (useInputStep now k s).committedItems.countP isInterruptEntry =
            s.committedItems.countP isInterruptEntry + 1 ∧
        (useInputStep now k s).bridgeRestartCounter = s.bridgeRestartCounter + 1 ∧
        (useInputStep now k s).bridgeAlive = false ∧
        (useInputStep now k s).escPressedOnce = false ∧
        (useInputStep now k s).showInterruptWarning = false ∧
        (useInputStep now k s).escTimerMs = none ∧
        (useInputStep now k s).isLoading = false) := by
  refine ⟨?_, ?_, ?_⟩
  · intro now k s hx h1 h2 h3
    simp [useInputStep, hx, h1, h2, h3]
  · intro s
    rfl
  · intro now k s ag hx h1 h2 h3 hfind
    cases hb : s.bridgeAlive <;>
      simp [useInputStep, hx, h1, h2, h3, hfind, hb, applyInterruptResetState,
        List.countP_append, List.countP_cons, isInterruptEntry, interruptItem]

/-- Witness for claim C9 at a concrete busy state with one active agent. -/
theorem c9_esc_gesture_witness :
    (useInputStep 3 { input := "", ctrl := false, escape := true }
        { initState with isLoading := true } =
      { ({ initState with isLoading := true } : RunState) with
          escPressedOnce := true, showInterruptWarning := true
        , escTimerMs := some 3000 }) ∧
    ((useInputStep 4 { input := "", ctrl := false, escape := true }
        { initState with isLoading := true, escPressedOnce := true
                       , agents := [{ name := "operator", status := "active"
                                    , statusText := none }] }).committedItems =
      [interruptItem 4 "operator"]) := by
  refine ⟨?_, ?_⟩
  · exact c9_esc_gesture.1 3 _ _ (by decide) rfl rfl rfl
  · have h := (c9_esc_gesture.2.2 4 { input := "", ctrl := false, escape := true }
      { initState with isLoading := true, escPressedOnce := true
                     , agents := [{ name := "operator", status := "active"
                                  , statusText := none }] }
      { name := "operator", status := "active", statusText := none }
      (by decide) rfl rfl rfl (by decide)).1
    simpa using h

/-- Claim C10: when the second ESC arrives with no active agent in the
registry, the committed-item log is left unchanged, while the subprocess is
still killed, the partial reset is still applied, and the restart counter
is still incremented. -/
theorem c10_esc_no_active_agent :
    ∀ (now : Nat) (k : KeyInput) (s : RunState),
      isExitChord k = false → s.isLoading = true → s.escPressedOnce = true →
      k.escape = true →
      s.agents.find? (fun a => a.status = "active") = none →
      (useInputStep now k s).committedItems = s.committedItems ∧
      (useInputStep now k s).bridgeAlive = false ∧
      (useInputStep now k s).bridgeRestartCounter = s.bridgeRestartCounter + 1 ∧
      (useInputStep now k s).isLoading = false ∧
      (useInputStep now k s).agents = [] ∧
      (useInputStep now k s).checkpointMode = "checking" ∧
      (useInputStep now k s).taskProgress = none ∧
      (useInputStep now k s).systemStatus = "idle" := by
  intro now k s hx h1 h2 h3 hfind
  cases hb : s.bridgeAlive <;>
    simp [useInputStep, hx, h1, h2, h3, hfind, hb, applyInterruptResetState]

/-- Witness for claim C10 at a concrete busy state whose only agent is
already complete. -/
theorem c10_esc_no_active_agent_witness :
    (useInputStep 5 { input := "", ctrl := false, escape := true }
        { initState with isLoading := true, escPressedOnce := true
                       , agents := [{ name := "operator", status := "complete"
                                    , statusText := none }]
                       , committedItems := [interruptItem 1 "operator"] }).committedItems =
      [interruptItem 1 "operator"] :=
  (c10_esc_no_active_agent 5 { input := "", ctrl := false, escape := true }
    { initState with isLoading := true, escPressedOnce := true
                   , agents := [{ name := "operator", status := "complete"
                                , statusText := none }]
                   , committedItems := [interruptItem 1 "operator"] }
    (by decide) rfl rfl rfl (by decide)).1

/- =================== Claim C2: checkpoint reconstruction =============== -/

/-- A plan join whose head entry is non-empty is non-empty. -/
theorem joinPlan_ne_empty (p : String) (rest : List String) (hp : p ≠ "") :
    joinPlan (p :: rest) ≠ "" := by
  cases rest with
  | nil =>
    simpa [joinPlan] using hp
  | cons q t =>
    show p ++ "\n\n" ++ joinPlan (q :: t) ≠ ""
    intro hcontra
    have hd := congrArg (fun s => s.data.length) hcontra
    simp [String.data_append] at hd

/-- Under the hypotheses of claim C2 (plan longer than the completed count,
non-empty plan entries, non-empty recorded summaries), the block the
reconstruction loop pushes for a completed task index is exactly the
claim's block. -/
theorem histCompletedBlock_eq_claimBlock (h : CheckpointHistory) (i : Nat)
    (hi : i < h.completed_steps.length)
    (hlen : h.plan.length ≥ h.completed_steps.length + 1)
    (hplan : ∀ p ∈ h.plan, p ≠ "")
    (hsum : ∀ pr ∈ h.step_results, pr.2 ≠ "") :
    histCompletedBlock h i = claimCompletedBlock h i := by
  have hilt : i < h.plan.length := by omega
  have hget : h.plan.get? i = some (h.plan.get ⟨i, hilt⟩) := List.get?_eq_get hilt
  have hne : h.plan.get ⟨i, hilt⟩ ≠ "" :=
    hplan _ (List.get?_mem hget)
  have hlen2 : i + 1 ≤ h.plan.length := by omega
  unfold histCompletedBlock claimCompletedBlock
  rw [hget]
  simp only [hlen2, if_pos, ge_iff_le, Option.getD_some]
  rw [if_pos hne]
  cases hres : lookupResult h.step_results i with
  | none => simp
  | some summary =>
    have hsne : summary ≠ "" := by
      unfold lookupResult at hres
      cases hf : h.step_results.find? (fun p => p.1 = i) with
      | none => rw [hf] at hres; simp at hres
      | some pr =>
        rw [hf] at hres
        simp at hres
        exact hres ▸ hsum pr (List.mem_of_find?_eq_some hf)
    simp [hsne]

/-- A checkpoint-info message always reaches its handler (it is exempt
from the stale-message guard), after marking the main surface shown and the
system ready. -/
theorem dispatch_checkpoint_eq (now : Nat) (p : Option CheckpointPayload)
    (s : RunState) :
    dispatch now (.checkpoint_info p) s =
      handleCheckpointInfo { s with showMainUI := true, isSystemReady := true } p := by
  cases hb : s.isInterrupted <;> simp [dispatch, Msg.msgType, hb]

/-- The committed items `handleCheckpointInfo` produces are exactly the
checkpoint commit of the previous items. -/
theorem handleCheckpointInfo_committed (s : RunState) (pl : CheckpointPayload)
    (h : CheckpointHistory) (hh : pl.history = some h) :
    (handleCheckpointInfo s (some pl)).committedItems =
      checkpointCommit h s.committedItems := by
  obtain ⟨ex, pi, hist⟩ := pl
  simp only [CheckpointPayload.history] at hh
  subst hh
  unfold handleCheckpointInfo
  dsimp only
  repeat' split
  all_goals rfl

/-- The committed items a checkpoint-info dispatch produces are exactly the
checkpoint commit of the previous items. -/
theorem dispatch_checkpoint_committed (now : Nat) (pl : CheckpointPayload)
    (s : RunState) (h : CheckpointHistory) (hh : pl.history = some h) :
    (dispatch now (.checkpoint_info (some pl)) s).committedItems =
      checkpointCommit h s.committedItems := by
  rw [dispatch_checkpoint_eq]
  exact handleCheckpointInfo_committed _ pl h hh

/-- Re-invoking the checkpoint commit on an already-populated log is the
identity once the plan head is non-empty. -/
theorem checkpointCommit_idem (h : CheckpointHistory)
    (hlen : 1 ≤ h.plan.length) (hplan : ∀ p ∈ h.plan, p ≠ "") :
    ∀ prev, checkpointCommit h (checkpointCommit h prev) = checkpointCommit h prev := by
  intro prev
  have hplanContent :
      (if h.plan.length > 0 then joinPlan h.plan else h.full_plan_text) ≠ "" := by
    cases hp : h.plan with
    | nil => rw [hp] at hlen; simp at hlen
    | cons p rest =>
      have : p ≠ "" := hplan p (by rw [hp]; exact List.mem_cons_self p rest)
      simp only [hp, List.length_cons]
      rw [if_pos (Nat.succ_pos _)]
      exact joinPlan_ne_empty p rest this
  have hbuild : hasStrategistContent (prev ++ buildHistoryItems h) = true := by
    unfold hasStrategistContent
    rw [List.any_append]
    apply Bool.or_eq_true_iff.mpr
    right
    unfold buildHistoryItems histPlanItems
    rw [if_pos hplanContent]
    simp
  unfold checkpointCommit
  by_cases hs : hasStrategistContent prev = true
  · simp [hs]
  · have hs' : hasStrategistContent prev = false := by
      simpa using hs
    simp only [hs', Bool.false_eq_true, reduceIte]
    rw [if_pos hbuild]

/-- Claim C2 (amended): for a history with `k` completed steps,
`plan.length ≥ k + 1`, non-empty plan entries and non-empty recorded
summaries, reconstruction produces the strategist prefix followed by the
claim's contiguous ordered block for every task index `i < k` (header, task
box, primary-worker items in order with error flags, reviewer header,
reviewer items, summary when present, Evaluation-Passed status) and the
in-progress suffix; and dispatching the same checkpoint-info message a
second time leaves the committed-item log unchanged. -/
theorem c2_reconstruction :
    ∀ h : CheckpointHistory,
      h.plan.length ≥ h.completed_steps.length + 1 →
      (∀ p ∈ h.plan, p ≠ "") →
      (∀ pr ∈ h.step_results, pr.2 ≠ "") →
      buildHistoryItems h =
          histPlanItems h ++
            (List.range h.completed_steps.length).flatMap (claimCompletedBlock h) ++
            histInProgress h ∧
        (∀ (now now' : Nat) (pl : CheckpointPayload) (s : RunState),
            pl.history = some h →
            (dispatch now' (.checkpoint_info (some pl))
                (dispatch now (.checkpoint_info (some pl)) s)).committedItems =
              (dispatch now (.checkpoint_info (some pl)) s).committedItems) := by
  intro h hlen hplan hsum
  constructor
  · unfold buildHistoryItems
    congr 2
    exact List.flatMap_congr (fun i hi =>
      histCompletedBlock_eq_claimBlock h i (List.mem_range.mp hi) hlen hplan hsum)
  · intro now now' pl s hh
    rw [dispatch_checkpoint_committed now' pl _ h hh,
      dispatch_checkpoint_committed now pl s h hh]
    exact checkpointCommit_idem h (by omega) hplan s.committedItems

/-- Witness for claim C2 at the well-formed one-completed-step history. -/
theorem c2_reconstruction_witness :
    (c2GoodHistory.plan.length ≥ c2GoodHistory.completed_steps.length + 1) ∧
      (buildHistoryItems c2GoodHistory =
        histPlanItems c2GoodHistory ++
          (List.range c2GoodHistory.completed_steps.length).flatMap
            (claimCompletedBlock c2GoodHistory) ++
          histInProgress c2GoodHistory) ∧
      ((dispatch 2 (.checkpoint_info (some c2GoodPayload))
          (dispatch 1 (.checkpoint_info (some c2GoodPayload)) initState)).committedItems =
        (dispatch 1 (.checkpoint_info (some c2GoodPayload)) initState).committedItems) :=
  ⟨by decide,
    (c2_reconstruction c2GoodHistory (by decide) (by decide) (by decide)).1,
    (c2_reconstruction c2GoodHistory (by decide) (by decide) (by decide)).2
      1 2 c2GoodPayload initState rfl⟩

/-- Claim C2 (counterexample): a history with one completed step and
`plan.length = 2 ≥ k + 1` whose first plan entry is the empty string:
reconstruction emits no task box at all (the block for task index 0 lacks
the task box the claim requires). -/
theorem c2_counterexample :
    c2History.plan.length ≥ c2History.completed_steps.length + 1 ∧
      (buildHistoryItems c2History).countP
          (fun it => it.type = "active-task-panel") = 0 :=
  ⟨by decide, by decide⟩

/- ================== Claim C1: header de-duplication ==================== -/

/-- A list is a prefix of itself extended by anything. -/
theorem isPfx_append_self (l t : List Char) : isPfx l (l ++ t) = true := by
  induction l with
  | nil => rfl
  | cons c cs ih => simp [isPfx, ih]

/-- A list is a prefix of itself. -/
theorem isPfx_refl (l : List Char) : isPfx l l = true := by
  simpa using isPfx_append_self l []

/-- A substring test succeeds on any extension to the left of a prefix
occurrence. -/
theorem containsL_of_pfx (sub rest : List Char) (h : isPfx sub rest = true)
    (pre : List Char) : containsL sub (pre ++ rest) = true := by
  induction pre with
  | nil =>
    cases rest with
    | nil => simpa [containsL] using h
    | cons c r => simp [containsL, h]
  | cons c cs ih => simp [containsL, ih]

/-- The tagged evaluator header id contains its own task tag. -/
theorem evalTaggedId_contains_taskTag (tn : Nat) :
    containsL ("task" ++ toString tn).data
      ("evaluator-header-task" ++ toString tn).data = true := by
  have hsplit : ("evaluator-header-task" : String).data =
      ("evaluator-header-" : String).data ++ ("task" : String).data := by decide
  have h1 : ("evaluator-header-task" ++ toString tn).data =
      ("evaluator-header-" : String).data ++
        (("task" : String).data ++ (toString tn).data) := by
    rw [String.data_append, hsplit, List.append_assoc]
  rw [h1, String.data_append]
  exact containsL_of_pfx _ _ (isPfx_refl _) _

/-- The tagged evaluator header id contains the bare task marker. -/
theorem evalTaggedId_contains_task (tn : Nat) :
    containsL ("task" : String).data
      ("evaluator-header-task" ++ toString tn).data = true := by
  have hsplit : ("evaluator-header-task" : String).data =
      ("evaluator-header-" : String).data ++ ("task" : String).data := by decide
  have h1 : ("evaluator-header-task" ++ toString tn).data =
      ("evaluator-header-" : String).data ++
        (("task" : String).data ++ (toString tn).data) := by
    rw [String.data_append, hsplit, List.append_assoc]
  rw [h1]
  exact containsL_of_pfx _ _ (isPfx_append_self _ _) _

/-- A count is zero when a weaker any-test already fails. -/
theorem countP_eq_zero_of_any_false (p q : CommittedItem → Bool)
    (himp : ∀ it, p it = true → q it = true) (items : List CommittedItem)
    (h : items.any q = false) : items.countP p = 0 := by
  rw [List.countP_eq_zero]
  intro it hmem hp
  have := List.any_eq_false.mp h it hmem
  exact this (himp it hp)

/-- Appending one element keeps a count at most one when the element can
only satisfy the predicate if the count was zero. -/
theorem countP_append_le_one (p : CommittedItem → Bool) (items : List CommittedItem)
    (x : CommittedItem) (h : items.countP p ≤ 1)
    (hx : p x = true → items.countP p = 0) :
    (items ++ [x]).countP p ≤ 1 := by
  rw [List.countP_append]
  by_cases hp : p x = true
  · rw [hx hp]
    simp [List.countP_cons, hp]
  · have hp' : p x = false := by simpa using hp
    simpa [List.countP_cons, hp'] using h

/-- Master preservation lemma: appending an item keeps the header
invariant provided the item, whenever it lands in one of the counted
families, required that family's count to be zero. -/
theorem headerInv_append (items : List CommittedItem) (x : CommittedItem)
    (hinv : headerInv items)
    (hopr : ∀ n : Nat, x.type = "agent-header" →
        x.id = "operator-header-task" ++ toString n →
        cntHeader items "agent-header" ("operator-header-task" ++ toString n) = 0)
    (hevt : ∀ n : Nat, x.type = "evaluator-header" →
        x.id = "evaluator-header-task" ++ toString n →
        cntHeader items "evaluator-header" ("evaluator-header-task" ++ toString n) = 0)
    (hevu : x.type = "evaluator-header" →
        containsL ("task" : String).data x.id.data = false →
        cntUntaggedEval items = 0)
    (hfix : ∀ a : String, x.type = "agent-header" → x.id = a ++ "-header" →
        cntHeader items "agent-header" (a ++ "-header") = 0) :
    headerInv (items ++ [x]) := by
  obtain ⟨h1, h2, h3, h4⟩ := hinv
  refine ⟨fun n => ?_, fun n => ?_, ?_, fun a => ?_⟩
  · apply countP_append_le_one _ _ _ (h1 n)
    intro hp
    rw [Bool.and_eq_true, decide_eq_true_eq, decide_eq_true_eq] at hp
    exact hopr n hp.1 hp.2
  · apply countP_append_le_one _ _ _ (h2 n)
    intro hp
    rw [Bool.and_eq_true, decide_eq_true_eq, decide_eq_true_eq] at hp
    exact hevt n hp.1 hp.2
  · apply countP_append_le_one _ _ _ h3
    intro hp
    rw [Bool.and_eq_true, decide_eq_true_eq, Bool.not_eq_true'] at hp
    exact hevu hp.1 hp.2
  · apply countP_append_le_one _ _ _ (h4 a)
    intro hp
    rw [Bool.and_eq_true, decide_eq_true_eq, decide_eq_true_eq] at hp
    exact hfix a hp.1 hp.2

/-- Appending an agent-header item whose exact id is absent preserves the
invariant. -/
theorem headerInv_append_agentHeader (items : List CommittedItem) (x : CommittedItem)
    (hinv : headerInv items) (htype : x.type = "agent-header")
    (habs : items.any (fun it => it.id = x.id) = false) :
    headerInv (items ++ [x]) := by
  apply headerInv_append items x hinv
  · intro n _ hid
    apply countP_eq_zero_of_any_false _ (fun it => it.id = x.id) _ items habs
    intro it hp
    rw [Bool.and_eq_true, decide_eq_true_eq, decide_eq_true_eq] at hp
    rw [decide_eq_true_eq, hp.2, hid]
  · intro n htype' _
    exact absurd (htype.symm.trans htype') (by decide)
  · intro htype' _
    exact absurd (htype.symm.trans htype') (by decide)
  · intro a _ hid
    apply countP_eq_zero_of_any_false _ (fun it => it.id = x.id) _ items habs
    intro it hp
    rw [Bool.and_eq_true, decide_eq_true_eq, decide_eq_true_eq] at hp
    rw [decide_eq_true_eq, hp.2, hid]

/-- Appending a tagged evaluator header whose task tag occurs in no
evaluator header yet preserves the invariant. -/
theorem headerInv_append_evalTagged (items : List CommittedItem) (tn : Nat)
    (hinv : headerInv items)
    (habs : items.any (fun it => it.type = "evaluator-header" &&
        containsL ("task" ++ toString tn).data it.id.data) = false) :
    headerInv (items ++
      [{ id := "evaluator-header-task" ++ toString tn
       , type := "evaluator-header"
       , content := .text (some "evaluator")
       , agentName := some "evaluator" }]) := by
  apply headerInv_append _ _ hinv
  · intro n htype _
    simp at htype
  · intro n _ hid
    apply countP_eq_zero_of_any_false _
      (fun it => it.type = "evaluator-header" &&
        containsL ("task" ++ toString tn).data it.id.data) _ items habs
    intro it hp
    rw [Bool.and_eq_true, decide_eq_true_eq, decide_eq_true_eq] at hp
    rw [Bool.and_eq_true, decide_eq_true_eq]
    refine ⟨hp.1, ?_⟩
    rw [hp.2, ← hid]
    exact evalTaggedId_contains_taskTag tn
  · intro _ hcont
    have hcont' : containsL ("task" : String).data
        ("evaluator-header-task" ++ toString tn).data = false := hcont
    rw [evalTaggedId_contains_task tn] at hcont'
    cases hcont'
  · intro a htype _
    simp at htype

/-- Appending an untagged evaluator header when no evaluator header exists
preserves the invariant. -/
theorem headerInv_append_evalUntagged (items : List CommittedItem) (now : Nat)
    (hinv : headerInv items)
    (habs : items.any (fun it => it.type = "evaluator-header") = false) :
    headerInv (items ++
      [{ id := "evaluator-header-" ++ toString now
       , type := "evaluator-header"
       , content := .text (some "evaluator")
       , agentName := some "evaluator" }]) := by
  apply headerInv_append _ _ hinv
  · intro n htype _
    simp at htype
  · intro n _ _
    apply countP_eq_zero_of_any_false _ (fun it => it.type = "evaluator-header") _ items habs
    intro it hp
    rw [Bool.and_eq_true, decide_eq_true_eq, decide_eq_true_eq] at hp
    rw [decide_eq_true_eq]
    exact hp.1
  · intro _ _
    apply countP_eq_zero_of_any_false _ (fun it => it.type = "evaluator-header") _ items habs
    intro it hp
    rw [Bool.and_eq_true, decide_eq_true_eq] at hp
    rw [decide_eq_true_eq]
    exact hp.1
  · intro a htype _
    simp at htype

/-- Appending a non-header item preserves the invariant. -/
theorem headerInv_append_content (items : List CommittedItem) (x : CommittedItem)
    (hinv : headerInv items) (hx : isHeaderType x.type = false) :
    headerInv (items ++ [x]) := by
  have hag : x.type ≠ "agent-header" := by
    intro hc
    rw [isHeaderType, hc] at hx
    simp at hx
  have hev : x.type ≠ "evaluator-header" := by
    intro hc
    rw [isHeaderType, hc] at hx
    simp at hx
  apply headerInv_append _ _ hinv
  · intro n htype _
    exact absurd htype hag
  · intro n htype _
    exact absurd htype hev
  · intro htype _
    exact absurd htype hev
  · intro a htype _
    exact absurd htype hag

/-- `ensureHeader` preserves the header invariant, whatever agent name and
task number it is called with. -/
theorem headerInv_ensure (plan : List String) (now : Nat)
    (items : List CommittedItem) (a : String) (t : Option Nat)
    (hinv : headerInv items) :
    headerInv (ensureHeader plan now items a t) := by
  unfold ensureHeader
  dsimp only
  split
  next hbr =>
    split
    next => exact hinv
    next hany =>
      split
      next => exact hinv
      next =>
        split
        next => exact hinv
        next =>
          split
          next hplan =>
            split
            next raw hget =>
              split
              next hraw =>
                apply headerInv_append_content _ _ ?base (by simp [isHeaderType])
                case base =>
                  exact headerInv_append_agentHeader items _ hinv rfl (by simpa using hany)
              next hraw =>
                exact headerInv_append_agentHeader items _ hinv rfl (by simpa using hany)
            next hget =>
              exact headerInv_append_agentHeader items _ hinv rfl (by simpa using hany)
          next hplan =>
            exact headerInv_append_agentHeader items _ hinv rfl (by simpa using hany)
  next hbr =>
    split
    next hev =>
      subst hev
      split
      next hguard =>
        split
        next habs =>
          exact headerInv_append_evalTagged items _ hinv (by simpa using habs)
        next => exact hinv
      next hguard =>
        split
        next habs =>
          exact headerInv_append_evalUntagged items now hinv (by simpa using habs)
        next => exact hinv
    next hev =>
      split
      next => exact hinv
      next hany =>
        exact headerInv_append_agentHeader items _ hinv rfl (by simpa using hany)

/-- The empty log satisfies the header invariant. -/
theorem headerInv_nil : headerInv [] := by
  refine ⟨fun n => ?_, fun n => ?_, ?_, fun a => ?_⟩ <;>
    simp [cntHeader, cntUntaggedEval]

/-- The header invariant holds after any live-only event sequence. -/
theorem headerInv_runLive (plan : List String) (evts : List LiveEvent) :
    ∀ items : List CommittedItem,
      liveOnly evts = true → headerInv items → headerInv (runLive plan evts items) := by
  induction evts with
  | nil =>
    intro items _ h
    exact h
  | cons e rest ih =>
    intro items hlo hinv
    have hlo2 := hlo
    unfold liveOnly at hlo2
    rw [List.all_cons, Bool.and_eq_true] at hlo2
    have hrest : liveOnly rest = true := hlo2.2
    have hstep : headerInv (liveStep plan items e) := by
      cases e with
      | ensure a t now => exact headerInv_ensure plan now items a t hinv
      | append it =>
        have hhd : isHeaderType it.type = false := by
          have := hlo2.1
          simpa using this
        exact headerInv_append_content items it hinv hhd
    exact ih (liveStep plan items e) hrest hstep

/-- Re-invoking `ensureHeader` with the same agent name and task number is
the identity on the log, whatever the two timestamps are. -/
theorem ensureHeader_idem (plan : List String) (now1 now2 : Nat)
    (items : List CommittedItem) (a : String) (t : Option Nat) :
    ensureHeader plan now2 (ensureHeader plan now1 items a t) a t =
      ensureHeader plan now1 items a t := by
  generalize hres : ensureHeader plan now1 items a t = R
  unfold ensureHeader at hres
  dsimp only at hres
  split at hres
  next hbr =>
    split at hres
    next hany =>
      subst hres
      simp [ensureHeader, hbr, hany]
    next hany =>
      have hany' : (items.any fun item =>
          decide (item.id = a ++ "-header-task" ++ toString (t.getD 0))) = false := by
        simpa using hany
      split at hres
      next hlast =>
        subst hres
        simp [ensureHeader, hbr, hany', hlast]
      next hlast =>
        have hlast' : (match items.getLast? with
            | some lastItem =>
              decide (lastItem.agentName = some "operator") && decide (t.getD 0 = 1)
            | none => false) = false := by
          simpa using hlast
        split at hres
        next hleg =>
          subst hres
          simp [ensureHeader, hbr, hany', hlast', hleg]
        next hleg =>
          split at hres
          next hplan =>
            split at hres
            next raw hget =>
              split at hres
              next hraw =>
                subst hres
                simp [ensureHeader, hbr, List.any_append]
              next hraw =>
                subst hres
                simp [ensureHeader, hbr, List.any_append]
            next hget =>
              subst hres
              simp [ensureHeader, hbr, List.any_append]
          next hplan =>
            subst hres
            simp [ensureHeader, hbr, List.any_append]
  next hbr =>
    split at hres
    next hev =>
      subst hev
      split at hres
      next hguard =>
        split at hres
        next habs =>
          subst hres
          simp [ensureHeader, hbr, hguard, List.any_append]
          intro _
          exact evalTaggedId_contains_taskTag (t.getD 0)
        next habs =>
          have habs' := habs
          subst hres
          simp only [ensureHeader, hbr, hguard]
          simpa using habs'
      next hguard =>
        split at hres
        next habs =>
          subst hres
          simp [ensureHeader, hbr, hguard, List.any_append]
        next habs =>
          have habs' := habs
          subst hres
          simp only [ensureHeader, hbr, hguard]
          simpa using habs'
    next hev =>
      split at hres
      next hany =>
        subst hres
        simp [ensureHeader, hbr, hev, hany]
      next hany =>
        subst hres
        simp [ensureHeader, hbr, hev, List.any_append]

/-- Claim C1 (amended): over live-only event sequences (header-ensuring
calls plus content appends that never carry a header type, with no
checkpoint reconstruction mixed in), the log satisfies the header
invariant: at most one header item per (agent, task) pair under the live id
conventions; and re-invoking `ensureHeader` for a pair is always the
identity on a log it already processed. -/
theorem c1_header_dedup :
    (∀ (plan : List String) (evts : List LiveEvent),
        liveOnly evts = true → headerInv (runLive plan evts [])) ∧
      (∀ (plan : List String) (now1 now2 : Nat) (items : List CommittedItem)
          (a : String) (t : Option Nat),
          ensureHeader plan now2 (ensureHeader plan now1 items a t) a t =
            ensureHeader plan now1 items a t) :=
  ⟨fun plan evts hlo => headerInv_runLive plan evts [] hlo headerInv_nil,
   fun plan now1 now2 items a t => ensureHeader_idem plan now1 now2 items a t⟩

/-- Witness for claim C1 at a concrete live event sequence and a concrete
repeated header call. -/
theorem c1_header_dedup_witness :
    (liveOnly c1LiveEvents = true) ∧
      (cntHeader (runLive ["Task 1: x"] c1LiveEvents []) "agent-header"
          ("operator-header-task" ++ toString 1) ≤ 1) ∧
      (ensureHeader ["Task 1: x"] 8
          (ensureHeader ["Task 1: x"] 7 [] "operator" (some 1)) "operator" (some 1) =
        ensureHeader ["Task 1: x"] 7 [] "operator" (some 1)) :=
  ⟨by decide,
    (c1_header_dedup.1 ["Task 1: x"] c1LiveEvents (by decide)).1 1,
    c1_header_dedup.2 ["Task 1: x"] 7 8 [] "operator" (some 1)⟩

/-- Claim C1 (counterexample): dispatching a checkpoint reconstruction
(one completed step, recorded in-progress items for task 2) followed by a
live operator start event leaves the log with two operator agent-header
items for task 2 — one under the reconstruction id convention (the
history suffix), one under the live id convention — so the log does not
contain at most one header per (agentName, taskNumber) pair, and the
repeated header-triggering call was not a no-op. -/
theorem c1_counterexample :
    ((dispatchAll c1Messages initState).committedItems.countP
        (fun it => it.type = "agent-header" && it.agentName = some "operator" &&
          (it.id = "operator-header-task2" || it.id = "operator-header-task2-history"))) = 2 := by
  decide


/- ===================== C6: parseStyledSegments scan ==================== -/
theorem codeScanGo_spec' : ∀ (fuel pos : Nat) (l : List Char),
    (∀ m ∈ codeScanGo fuel pos l, pos ≤ m.1 ∧ m.1 < m.2) ∧
      List.Chain' (fun a b => a.2 ≤ b.1) (codeScanGo fuel pos l) := by
  intro fuel
  induction fuel with
  | zero =>
    intro pos l
    cases l <;> simp [codeScanGo]
  | succ fuel ih =>
    intro pos l
    cases l with
    | nil => simp [codeScanGo]
    | cons c rest =>
      unfold codeScanGo
      by_cases hc : c = '\x60'
      · rw [if_pos hc]
        cases hsplit : splitAtTick rest with
        | none => dsimp only; simp
        | some pr =>
          obtain ⟨run, rest'⟩ := pr
          dsimp only
          by_cases hrun : run = []
          · rw [if_pos hrun]
            refine ⟨fun m hm => ?_, (ih (pos + 1) rest).2⟩
            have h := (ih (pos + 1) rest).1 m hm
            exact ⟨by omega, h.2⟩
          · rw [if_neg hrun]
            constructor
            · intro m hm
              rcases List.mem_cons.mp hm with hm | hm
              · subst hm
                exact ⟨Nat.le_refl pos, by omega⟩
              · have h := (ih (pos + run.length + 2) rest').1 m hm
                exact ⟨by omega, h.2⟩
            · rw [List.chain'_cons']
              constructor
              · intro b hb
                have hbmem : b ∈ codeScanGo fuel (pos + run.length + 2) rest' :=
                  List.mem_of_mem_head? hb
                have h := (ih (pos + run.length + 2) rest').1 b hbmem
                exact h.1
              · exact (ih (pos + run.length + 2) rest').2
      · rw [if_neg hc]
        refine ⟨fun m hm => ?_, (ih (pos + 1) rest).2⟩
        have h := (ih (pos + 1) rest).1 m hm
        exact ⟨by omega, h.2⟩

theorem acceptBolds_sound' : ∀ (cands : List (Nat × Nat)) (init : List Marker) (m : Marker),
    m ∈ acceptBolds init cands →
    m ∈ init ∨ (overlapsAccepted init m.start m.stop = false ∧ m.style = .bold) := by
  intro cands
  induction cands with
  | nil =>
    intro init m hm
    exact Or.inl hm
  | cons c cs ih =>
    intro init m hm
    by_cases hov : overlapsAccepted init c.1 c.2 = true
    · have heq : acceptBolds init (c :: cs) = acceptBolds init cs := by
        simp [acceptBolds, hov]
      rw [heq] at hm
      exact ih init m hm
    · have hov' : overlapsAccepted init c.1 c.2 = false := by simpa using hov
      have heq : acceptBolds init (c :: cs) =
          acceptBolds (init ++ [⟨c.1, c.2, .bold⟩]) cs := by
        simp [acceptBolds, hov']
      rw [heq] at hm
      rcases ih _ m hm with hmem | hno
      · rcases List.mem_append.mp hmem with h1 | h2
        · exact Or.inl h1
        · have hm' : m = ⟨c.1, c.2, .bold⟩ := by simpa using h2
          subst hm'
          exact Or.inr ⟨hov', rfl⟩
      · refine Or.inr ⟨?_, hno.2⟩
        have := hno.1
        unfold overlapsAccepted at this ⊢
        rw [List.any_append] at this
        rcases Bool.or_eq_false_iff.mp this with ⟨ha, _⟩
        exact ha

theorem codeScanGo_tickfree' : ∀ (fuel pos : Nat) (l : List Char),
    (∀ ch ∈ l, ch ≠ '\x60') → codeScanGo fuel pos l = [] := by
  intro fuel
  induction fuel with
  | zero => intro pos l _; cases l <;> rfl
  | succ fuel ih =>
    intro pos l h
    cases l with
    | nil => rfl
    | cons c rest =>
      unfold codeScanGo
      rw [if_neg (h c (List.mem_cons_self c rest))]
      exact ih (pos + 1) rest (fun ch hch => h ch (List.mem_cons_of_mem c hch))

theorem starRun_starfree' : ∀ l : List Char, (∀ ch ∈ l, ch ≠ '*') → starRun l = (l, []) := by
  intro l
  induction l with
  | nil => intro _; rfl
  | cons c rest ih =>
    intro h
    unfold starRun
    rw [if_neg (h c (List.mem_cons_self c rest))]
    rw [ih (fun ch hch => h ch (List.mem_cons_of_mem c hch))]

theorem boldScanGo_starfree' : ∀ (fuel pos : Nat) (l : List Char),
    (∀ ch ∈ l, ch ≠ '*') → boldScanGo fuel pos l = [] := by
  intro fuel
  induction fuel with
  | zero => intro pos l _; cases l <;> rfl
  | succ fuel ih =>
    intro pos l h
    cases l with
    | nil => rfl
    | cons c rest =>
      unfold boldScanGo
      rw [if_neg (h c (List.mem_cons_self c rest))]
      exact ih (pos + 1) rest (fun ch hch => h ch (List.mem_cons_of_mem c hch))

theorem boldScanGo_one_star' : ∀ (fuel pos : Nat) (rest : List Char),
    (∀ ch ∈ rest, ch ≠ '*') → boldScanGo fuel pos ('*' :: rest) = [] := by
  intro fuel pos rest h
  cases fuel with
  | zero => rfl
  | succ fuel =>
    unfold boldScanGo
    rw [if_pos rfl]
    cases rest with
    | nil =>
      dsimp only
      exact boldScanGo_starfree' fuel (pos + 1) [] (by simp)
    | cons d ds =>
      have hd : d ≠ '*' := h d (List.mem_cons_self d ds)
      split
      next tail heq =>
        injection heq with h1 _
        exact absurd h1 hd
      next =>
        exact boldScanGo_starfree' fuel (pos + 1) (d :: ds) h

theorem boldScanGo_open' : ∀ (fuel pos : Nat) (rest : List Char),
    (∀ ch ∈ rest, ch ≠ '*') → boldScanGo fuel pos ('*' :: '*' :: rest) = [] := by
  intro fuel pos rest h
  cases fuel with
  | zero => rfl
  | succ fuel =>
    unfold boldScanGo
    rw [if_pos rfl]
    split
    next tail heq =>
      injection heq with _ h2
      subst h2
      rw [starRun_starfree' rest h]
      cases rest with
      | nil =>
        exact boldScanGo_one_star' fuel (pos + 1) [] (by simp)
      | cons d ds =>
        try dsimp only
        exact boldScanGo_one_star' fuel (pos + 1) (d :: ds) h
    next hne =>
      exact absurd rfl (hne rest)


theorem codeMarkersOf_wf' : ∀ line : List Char,
    (∀ m ∈ codeMarkersOf line, m.start < m.stop ∧ m.style = SegStyle.code) ∧
      List.Chain' (fun a b : Marker => a.stop ≤ b.start) (codeMarkersOf line) := by
  intro line
  unfold codeMarkersOf codeScan
  constructor
  · intro m hm
    rcases List.mem_map.mp hm with ⟨p, hp, hpm⟩
    subst hpm
    exact ⟨((codeScanGo_spec' line.length 0 line).1 p hp).2, rfl⟩
  · rw [List.chain'_map]
    exact (codeScanGo_spec' line.length 0 line).2

theorem isSfx_open_false' : ∀ (r : Char) (rs : List Char),
    (∀ ch ∈ r :: rs, ch ≠ '*') → isSfx ['*', '*'] ('*' :: '*' :: r :: rs) = false := by
  intro r rs h
  unfold isSfx
  cases hrev : (r :: rs).reverse with
  | nil => exact absurd (List.reverse_eq_nil_iff.mp hrev) (by simp)
  | cons a as =>
    have ha : a ∈ (r :: rs) := by
      rw [← List.mem_reverse, hrev]; exact List.mem_cons_self a as
    have ha' : a ≠ '*' := h a ha
    have : ('*' :: '*' :: r :: rs).reverse = a :: (as ++ ['*', '*']) := by
      simp [List.reverse_cons, hrev]
    rw [this]
    simp [isPfx, ha']
    intro hcontra
    exact absurd hcontra.symm ha'

theorem unclosedBold_starfree' : ∀ line : List Char,
    (∀ ch ∈ line, ch ≠ '*') → unclosedBold line = false := by
  intro line h
  cases line with
  | nil => rfl
  | cons c rest =>
    cases rest with
    | nil =>
      have hc : c ≠ '*' := h c (List.mem_cons_self c [])
      unfold unclosedBold
      split
      next heq => injection heq with h1 _; exact absurd h1 hc
      next => rfl
    | cons d ds =>
      have hc : c ≠ '*' := h c (by simp)
      unfold unclosedBold
      split
      next heq => injection heq with h1 _; exact absurd h1 hc
      next => rfl

theorem parseStyledSegments_plain' : ∀ line : List Char,
    (∀ ch ∈ line, ch ≠ '*') → (∀ ch ∈ line, ch ≠ '\x60') →
    parseStyledSegments line = [⟨line, SegStyle.normal⟩] := by
  intro line hs ht
  have hcode : codeScan line = [] := codeScanGo_tickfree' line.length 0 line ht
  have hbold : boldScan line = [] := boldScanGo_starfree' line.length 0 line hs
  have hmk : lineMarkers line = [] := by
    unfold lineMarkers boldAccepted codeMarkersOf
    rw [hcode, hbold]
    simp [acceptBolds, unclosedBold_starfree' line hs]
  unfold parseStyledSegments
  rw [hmk]
  cases line with
  | nil => rfl
  | cons c rest =>
    dsimp only [sortByStart, List.foldr]
    unfold buildSegs
    rw [if_pos (by simp)]
    simp

theorem parseStyledSegments_unclosed' : ∀ rest : List Char, rest ≠ [] →
    (∀ ch ∈ rest, ch ≠ '*') → (∀ ch ∈ rest, ch ≠ '\x60') →
    parseStyledSegments ('*' :: '*' :: rest) = [⟨rest, SegStyle.bold⟩] := by
  intro rest hne hs ht
  obtain ⟨r, rs, hrrs⟩ : ∃ r rs, rest = r :: rs := by
    cases rest with
    | nil => exact absurd rfl hne
    | cons r rs => exact ⟨r, rs, rfl⟩
  subst hrrs
  have htfull : ∀ ch ∈ ('*' :: '*' :: r :: rs), ch ≠ '\x60' := by
    intro ch hch
    rcases List.mem_cons.mp hch with rfl | hch
    · decide
    · rcases List.mem_cons.mp hch with rfl | hch
      · decide
      · exact ht ch hch
  have hcode : codeScan ('*' :: '*' :: r :: rs) = [] :=
    codeScanGo_tickfree' _ 0 _ htfull
  have hbold : boldScan ('*' :: '*' :: r :: rs) = [] :=
    boldScanGo_open' _ 0 (r :: rs) hs
  have hub : unclosedBold ('*' :: '*' :: r :: rs) = true := by
    unfold unclosedBold
    split
    next r0 heq =>
      injection heq with _ h2
      injection h2 with _ h3
      subst h3
      rw [List.all_eq_true]
      intro ch hch
      simpa using hs ch hch
    next hne2 =>
      exact absurd rfl (hne2 (r :: rs))
  have hmk : lineMarkers ('*' :: '*' :: r :: rs) =
      [⟨0, ('*' :: '*' :: r :: rs).length, SegStyle.bold⟩] := by
    unfold lineMarkers boldAccepted codeMarkersOf
    rw [hcode, hbold]
    simp [acceptBolds, hub]
  have hbc : boldContent ('*' :: '*' :: r :: rs) = r :: rs := by
    unfold boldContent
    rw [if_neg (by simp [isSfx_open_false' r rs hs])]
    split
    next r0 heq =>
      injection heq with _ h2
      injection h2 with _ h3
      exact h3.symm
    next hne2 =>
      exact absurd rfl (hne2 (r :: rs))
  have hsegs : buildSegs ('*' :: '*' :: r :: rs)
      [⟨0, ('*' :: '*' :: r :: rs).length, SegStyle.bold⟩] 0 = [⟨r :: rs, SegStyle.bold⟩] := by
    simp [buildSegs, hbc]
  unfold parseStyledSegments
  rw [hmk]
  dsimp only [sortByStart, List.foldr, insertByStart]
  rw [hsegs]
  simp

/-- C6: on every line, the code scan yields well-formed (start < stop),
mutually disjoint, left-to-right ordered code markers; every accepted bold
marker avoids having an endpoint inside any code span; an unterminated
line-initial double asterisk followed by asterisk-free, backtick-free text is
emitted as a single bold segment spanning to end of line; and a line with no
asterisk and no backtick is emitted as a single normal segment. -/
theorem c6_segment_scan :
    (∀ line : List Char,
      (∀ m ∈ codeMarkersOf line, m.start < m.stop ∧ m.style = SegStyle.code) ∧
      List.Chain' (fun a b : Marker => a.stop ≤ b.start) (codeMarkersOf line) ∧
      (∀ m ∈ boldAccepted line,
        m ∈ codeMarkersOf line ∨
          (overlapsAccepted (codeMarkersOf line) m.start m.stop = false ∧
            m.style = SegStyle.bold))) ∧
    (∀ rest : List Char, rest ≠ [] → (∀ ch ∈ rest, ch ≠ '*') →
      (∀ ch ∈ rest, ch ≠ '\x60') →
      parseStyledSegments ('*' :: '*' :: rest) = [⟨rest, SegStyle.bold⟩]) ∧
    (∀ line : List Char, (∀ ch ∈ line, ch ≠ '*') → (∀ ch ∈ line, ch ≠ '\x60') →
      parseStyledSegments line = [⟨line, SegStyle.normal⟩]) := by
  refine ⟨fun line => ⟨(codeMarkersOf_wf' line).1, (codeMarkersOf_wf' line).2,
      fun m hm => acceptBolds_sound' (boldScan line) (codeMarkersOf line) m hm⟩,
    parseStyledSegments_unclosed', parseStyledSegments_plain'⟩

theorem c6_segment_scan_witness :
    parseStyledSegments ('*' :: '*' :: "abc".data) = [⟨"abc".data, SegStyle.bold⟩] ∧
    parseStyledSegments "plain".data = [⟨"plain".data, SegStyle.normal⟩] :=
  ⟨c6_segment_scan.2.1 "abc".data (by decide) (by decide) (by decide),
   c6_segment_scan.2.2 "plain".data (by decide) (by decide)⟩

theorem c6_counterexample :
    parseStyledSegments "**a \x60b\x60 c**".data =
      [⟨"a \x60b\x60 c".data, SegStyle.bold⟩, ⟨"b".data, SegStyle.code⟩,
        ⟨" c**".data, SegStyle.normal⟩] ∧
    (⟨0, 11, SegStyle.bold⟩ : Marker) ∈ lineMarkers "**a \x60b\x60 c**".data ∧
    (⟨4, 7, SegStyle.code⟩ : Marker) ∈ lineMarkers "**a \x60b\x60 c**".data ∧
    ((parseStyledSegments "**a \x60b\x60 c**".data).map
        (fun s => s.text.length)).sum > ("**a \x60b\x60 c**".data).length := by
  refine ⟨by decide, by decide, by decide, by decide⟩

end Quasar
